import Mathlib

/-!
Verification development for the spike-event file I/O module
(`src/spikeFileIO.py`): the sparse `event` container, the four binary
record codecs (1D, 2D, 3D, spike-count summary) and the conversions
between the sparse container and dense binned tensors.

Conventions of the embedding:
* numpy integer arrays become `List ℤ` (or `List ℕ` for raw bytes);
  numpy float/double data becomes `ℚ` (the module only ever divides or
  multiplies timestamps by 1000 or by the sampling time, so exact
  rationals model the values the code manipulates).
* `np.round` is round-half-to-even (`npRound`).
* numpy int64 bitwise operations are modelled on `ℤ` through the
  64-bit two's-complement word (`npAnd`, `npOr`, `npShl`); right shift
  of an int64 is arithmetic, i.e. `Int.shiftRight`.
* operations that can raise in Python return `Except String _`;
  `.error` models an exception propagating out of the call (so nothing
  is written to any output file).
* numpy strided slice reads (`arr[k::step]`) become `npSlice`; strided
  slice assignment into a `bytearray` becomes `sliceAssign`, which
  raises exactly when the value list and the slice have different
  lengths, as `bytearray` extended-slice assignment does.
* elementwise binary operations on two numpy arrays broadcast:
  same length works elementwise, a length-1 (or, against a length-1
  operand, length-0) array broadcasts, anything else raises
  (`bcast2`).
-/

/-- Round half to even, the rounding used by `np.round`. -/
def npRound (q : ℚ) : ℤ :=
  if Int.fract q < 1/2 then ⌊q⌋
  else if 1/2 < Int.fract q then ⌊q⌋ + 1
  else if ⌊q⌋ % 2 = 0 then ⌊q⌋ else ⌊q⌋ + 1

/-- The 64-bit two's-complement word holding an int64 value (as a `ℕ`). -/
def word64 (a : ℤ) : ℕ := (a.emod (2 ^ 64)).toNat

/-- Reinterpret a 64-bit word as a signed int64 value. -/
def toSigned64 (u : ℕ) : ℤ := if u < 2 ^ 63 then (u : ℤ) else (u : ℤ) - 2 ^ 64

/-- numpy int64 bitwise AND. -/
def npAnd (a b : ℤ) : ℤ := toSigned64 (word64 a &&& word64 b)

/-- numpy int64 bitwise OR. -/
def npOr (a b : ℤ) : ℤ := toSigned64 (word64 a ||| word64 b)

/-- numpy int64 left shift (wraps modulo 2^64 like the hardware op). -/
def npShl (a : ℤ) (k : ℕ) : ℤ := toSigned64 (word64 (a * 2 ^ k))

/-- `np.uint8(v)`: value modulo 256, as a byte. -/
def uint8 (v : ℤ) : ℕ := (v.emod 256).toNat

/-- `min()` over a numpy array; `none` models the `ValueError` raised by a
reduction over a zero-size array. -/
def listMin : List ℚ → Option ℚ
  | [] => none
  | a :: rest => some (rest.foldl min a)

/-- `max()` over a numpy array; `none` models the error on an empty array. -/
def listMax : List ℚ → Option ℚ
  | [] => none
  | a :: rest => some (rest.foldl max a)

/-- Helper for `npSlice`: `skip` elements remain before the next one taken;
after an element is taken, `step - 1` further elements are skipped. -/
def npSliceAux (step : ℕ) : ℕ → List ℕ → List ℕ
  | _, [] => []
  | 0, a :: rest => a :: npSliceAux step (step - 1) rest
  | skip + 1, _ :: rest => npSliceAux step skip rest

/-- The strided slice read `arr[start::step]`: every `step`-th element of
the array, starting at index `start`. -/
def npSlice (l : List ℕ) (start step : ℕ) : List ℕ :=
  npSliceAux step start l

/-- Elementwise binary operation on two numpy 1-D arrays with numpy
broadcasting: equal lengths work elementwise, a length-1 operand is
broadcast (which against a length-0 operand yields a length-0 result),
and any other combination raises a broadcast `ValueError`. -/
def bcast2 {α β γ : Type} (f : α → β → γ) (a : List α) (b : List β) :
    Except String (List γ) :=
  if a.length = b.length then .ok (List.zipWith f a b)
  else
    match a, b with
    | [x], bs => .ok (bs.map (f x))
    | as_, [y] => .ok (as_.map (fun x => f x y))
    | _, _ => .error "operands could not be broadcast together"

/-- Number of indices selected by the slice `[start::step]` of a buffer of
length `n` (with `step > 0`). -/
def sliceCount (n start step : ℕ) : ℕ :=
  if start < n then (n - start + (step - 1)) / step else 0

/-- `bytearray` extended-slice assignment `buf[start::step] = vals`: raises
when `vals` and the slice have different lengths, otherwise writes each
value at its slice position. -/
def sliceAssign (buf : List ℕ) (start step : ℕ) (vals : List ℕ) :
    Except String (List ℕ) :=
  if vals.length = sliceCount buf.length start step then
    .ok (buf.enum.map fun iv =>
      if start ≤ iv.1 && (iv.1 - start) % step == 0 then
        vals.getD ((iv.1 - start) / step) 0
      else iv.2)
  else .error "attempt to assign bytes to extended slice of different size"

instance {ε α : Type} [DecidableEq ε] [DecidableEq α] : DecidableEq (Except ε α) :=
  fun a b =>
    match a, b with
    | .ok x, .ok y =>
      if h : x = y then isTrue (by rw [h])
      else isFalse (by intro hc; cases hc; exact h rfl)
    | .error x, .error y =>
      if h : x = y then isTrue (by rw [h])
      else isFalse (by intro hc; cases hc; exact h rfl)
    | .ok _, .error _ => isFalse (by intro hc; cases hc)
    | .error _, .ok _ => isFalse (by intro hc; cases hc)

/-- The sparse spike-event container (`class event` in the source).
`y = none` is the 1-dimensional case (`yEvent is None`). -/
structure event where
  dim : ℕ
  x : List ℚ
  y : Option (List ℚ)
  p : List ℚ
  t : List ℚ
  deriving DecidableEq

/-- `event.__init__`: sets `dim` from whether `y` is `None`, stores the four
columns, and normalizes `p` by subtracting its minimum (`self.p -= self.p.min()`).
`min` of an empty `p` column raises, which is the `.error` case. -/
def event.init (xEvent : List ℚ) (yEvent : Option (List ℚ)) (pEvent tEvent : List ℚ) :
    Except String event :=
  match listMin pEvent with
  | none => .error "zero-size array to reduction operation minimum which has no identity"
  | some m =>
    .ok { dim := match yEvent with | none => 1 | some _ => 2
          x := xEvent
          y := yEvent
          p := pEvent.map (fun v => v - m)
          t := tEvent }

/-- In `event.__init__` the dispatch `xEvent if type(xEvent) is np.array else
np.asarray(xEvent)` never copies: `np.array` is a function, so the test is
always false, and `np.asarray` returns its argument itself when it is already
an ndarray.  The in-place `self.p -= self.p.min()` therefore updates the
caller's own `p` buffer when an ndarray was passed.  This function gives the
contents of the caller's `p` buffer after construction in that case. -/
def callerPBufferAfterInit (pEvent : List ℚ) : Except String (List ℚ) :=
  match listMin pEvent with
  | none => .error "zero-size array to reduction operation minimum which has no identity"
  | some m => .ok (pEvent.map (fun v => v - m))

/-- The `y` column as a plain list (empty when absent). -/
def event.yD (TD : event) : List ℚ := TD.y.getD []

/-- `read1Dspikes` (decode of the 1D format), on the raw bytes of the file.
Record stride 5; `x = (b0 << 8) | b1`, `p = b2 >> 7`,
`t_us = ((b2 << 16) | (b3 << 8) | b4) & 0x7FFFFF`, timestamps returned in
milliseconds (`t_us / 1000`). -/
def read1Dspikes (inputByteArray : List ℕ) : Except String event := do
  let inputAsInt := inputByteArray
  let xEvent ← bcast2 (fun (a b : ℕ) => (a <<< 8) ||| b)
    (npSlice inputAsInt 0 5) (npSlice inputAsInt 1 5)
  let pEvent := (npSlice inputAsInt 2 5).map (fun (b : ℕ) => b >>> 7)
  let u ← bcast2 (fun (a b : ℕ) => (a <<< 16) ||| (b <<< 8))
    (npSlice inputAsInt 2 5) (npSlice inputAsInt 3 5)
  let v ← bcast2 (fun (a b : ℕ) => a ||| b) u (npSlice inputAsInt 4 5)
  let tEvent := v.map (fun (b : ℕ) => b &&& 0x7FFFFF)
  event.init (xEvent.map fun n => (n : ℚ)) none (pEvent.map fun n => (n : ℚ))
    (tEvent.map fun n => (n : ℚ) / 1000)

/-- `encode1Dspikes`: dimension check, round the columns, timestamps to
microseconds, then pack the five byte planes by strided assignment. -/
def encode1Dspikes (TD : event) : Except String (List ℕ) :=
  if TD.dim ≠ 1 then .error "Expected Td dimension to be 1" else do
  let xEvent := TD.x.map npRound
  let pEvent := TD.p.map npRound
  let tEvent := TD.t.map fun q => npRound (q * 1000)
  let buf0 := List.replicate (tEvent.length * 5) 0
  let buf1 ← sliceAssign buf0 0 5 (xEvent.map fun (v : ℤ) => uint8 (npAnd (v >>> 8) 0xFF00))
  let buf2 ← sliceAssign buf1 1 5 (xEvent.map fun (v : ℤ) => uint8 (npAnd v 0xFF))
  let b2 ← bcast2 (fun (tv pv : ℤ) => uint8 (npOr (npAnd (tv >>> 16) 0x7F) (npShl pv 7)))
    tEvent pEvent
  let buf3 ← sliceAssign buf2 2 5 b2
  let buf4 ← sliceAssign buf3 3 5 (tEvent.map fun (v : ℤ) => uint8 (npAnd (v >>> 8) 0xFF))
  sliceAssign buf4 4 5 (tEvent.map fun (v : ℤ) => uint8 (npAnd v 0xFF))

/-- `read2Dspikes`: stride 5; `x = b0`, `y = b1`, `p = b2 >> 7`,
`t_us = ((b2 << 16) | (b3 << 8) | b4) & 0x7FFFFF`. -/
def read2Dspikes (inputByteArray : List ℕ) : Except String event := do
  let inputAsInt := inputByteArray
  let xEvent := npSlice inputAsInt 0 5
  let yEvent := npSlice inputAsInt 1 5
  let pEvent := (npSlice inputAsInt 2 5).map (fun (b : ℕ) => b >>> 7)
  let u ← bcast2 (fun (a b : ℕ) => (a <<< 16) ||| (b <<< 8))
    (npSlice inputAsInt 2 5) (npSlice inputAsInt 3 5)
  let v ← bcast2 (fun (a b : ℕ) => a ||| b) u (npSlice inputAsInt 4 5)
  let tEvent := v.map (fun (b : ℕ) => b &&& 0x7FFFFF)
  event.init (xEvent.map fun n => (n : ℚ)) (some (yEvent.map fun n => (n : ℚ)))
    (pEvent.map fun n => (n : ℚ)) (tEvent.map fun n => (n : ℚ) / 1000)

/-- `encode2Dspikes`. -/
def encode2Dspikes (TD : event) : Except String (List ℕ) :=
  if TD.dim ≠ 2 then .error "Expected Td dimension to be 2" else do
  let xEvent := TD.x.map npRound
  let yEvent := TD.yD.map npRound
  let pEvent := TD.p.map npRound
  let tEvent := TD.t.map fun q => npRound (q * 1000)
  let buf0 := List.replicate (tEvent.length * 5) 0
  let buf1 ← sliceAssign buf0 0 5 (xEvent.map fun (v : ℤ) => uint8 v)
  let buf2 ← sliceAssign buf1 1 5 (yEvent.map fun (v : ℤ) => uint8 v)
  let b2 ← bcast2 (fun (tv pv : ℤ) => uint8 (npOr (npAnd (tv >>> 16) 0x7F) (npShl pv 7)))
    tEvent pEvent
  let buf3 ← sliceAssign buf2 2 5 b2
  let buf4 ← sliceAssign buf3 3 5 (tEvent.map fun (v : ℤ) => uint8 (npAnd (v >>> 8) 0xFF))
  sliceAssign buf4 4 5 (tEvent.map fun (v : ℤ) => uint8 (npAnd v 0xFF))

/-- `read3Dspikes`: stride 7; `x = (b0 << 4) | (b1 >> 4)`,
`y = b2 | ((b1 & 0x0F) << 8)`, `p = b3`, `t_us = (b4 << 16) | (b5 << 8) | b6`. -/
def read3Dspikes (inputByteArray : List ℕ) : Except String event := do
  let inputAsInt := inputByteArray
  let xEvent ← bcast2 (fun (a b : ℕ) => (a <<< 4) ||| (b >>> 4))
    (npSlice inputAsInt 0 7) (npSlice inputAsInt 1 7)
  let yEvent ← bcast2 (fun (a b : ℕ) => a ||| ((b &&& 0x0F) <<< 8))
    (npSlice inputAsInt 2 7) (npSlice inputAsInt 1 7)
  let pEvent := npSlice inputAsInt 3 7
  let u ← bcast2 (fun (a b : ℕ) => (a <<< 16) ||| (b <<< 8))
    (npSlice inputAsInt 4 7) (npSlice inputAsInt 5 7)
  let tEvent ← bcast2 (fun (a b : ℕ) => a ||| b) u (npSlice inputAsInt 6 7)
  event.init (xEvent.map fun n => (n : ℚ)) (some (yEvent.map fun n => (n : ℚ)))
    (pEvent.map fun n => (n : ℚ)) (tEvent.map fun n => (n : ℚ) / 1000)

/-- `encode3Dspikes` (requires `dim = 2`; wider coordinate fields). -/
def encode3Dspikes (TD : event) : Except String (List ℕ) :=
  if TD.dim ≠ 2 then .error "Expected Td dimension to be 2" else do
  let xEvent := TD.x.map npRound
  let yEvent := TD.yD.map npRound
  let pEvent := TD.p.map npRound
  let tEvent := TD.t.map fun q => npRound (q * 1000)
  let buf0 := List.replicate (tEvent.length * 7) 0
  let buf1 ← sliceAssign buf0 0 7 (xEvent.map fun (v : ℤ) => uint8 (v >>> 4))
  let b1 ← bcast2 (fun (xv yv : ℤ) => uint8 (npOr (npAnd (npShl xv 4) 0xFF) (npAnd (yv >>> 8) 0xFF00)))
    xEvent yEvent
  let buf2 ← sliceAssign buf1 1 7 b1
  let buf3 ← sliceAssign buf2 2 7 (yEvent.map fun (v : ℤ) => uint8 (npAnd v 0xFF))
  let buf4 ← sliceAssign buf3 3 7 (pEvent.map fun (v : ℤ) => uint8 v)
  let buf5 ← sliceAssign buf4 4 7 (tEvent.map fun (v : ℤ) => uint8 (npAnd (v >>> 16) 0xFF))
  let buf6 ← sliceAssign buf5 5 7 (tEvent.map fun (v : ℤ) => uint8 (npAnd (v >>> 8) 0xFF))
  sliceAssign buf6 6 7 (tEvent.map fun (v : ℤ) => uint8 (npAnd v 0xFF))

/-- `read1DnumSpikes`: stride 10; returns the four parallel sequences
`(neuronID, tStart_ms, tEnd_ms, nSpikes)` without building an `event`. -/
def read1DnumSpikes (inputByteArray : List ℕ) :
    Except String (List ℕ × List ℚ × List ℚ × List ℕ) := do
  let inputAsInt := inputByteArray
  let neuronID ← bcast2 (fun (a b : ℕ) => (a <<< 8) ||| b)
    (npSlice inputAsInt 0 10) (npSlice inputAsInt 1 10)
  let u1 ← bcast2 (fun (a b : ℕ) => (a <<< 16) ||| (b <<< 8))
    (npSlice inputAsInt 2 10) (npSlice inputAsInt 3 10)
  let tStart ← bcast2 (fun (a b : ℕ) => a ||| b) u1 (npSlice inputAsInt 4 10)
  let u2 ← bcast2 (fun (a b : ℕ) => (a <<< 16) ||| (b <<< 8))
    (npSlice inputAsInt 5 10) (npSlice inputAsInt 6 10)
  let tEnd ← bcast2 (fun (a b : ℕ) => a ||| b) u2 (npSlice inputAsInt 7 10)
  let nSpikes ← bcast2 (fun (a b : ℕ) => (a <<< 8) ||| b)
    (npSlice inputAsInt 8 10) (npSlice inputAsInt 9 10)
  pure (neuronID, tStart.map (fun n => (n : ℚ) / 1000),
    tEnd.map (fun n => (n : ℚ) / 1000), nSpikes)

/-- `encode1DnumSpikes`: round the four columns (times to microseconds) and
pack ten byte planes by strided assignment into a buffer sized from
`neuronID`.  A column whose length differs from `neuronID`'s makes its
strided assignment raise, before any output file is opened. -/
def encode1DnumSpikes (nID tSt tEn nSp : List ℚ) : Except String (List ℕ) := do
  let neuronID := nID.map npRound
  let tStart := tSt.map fun q => npRound (q * 1000)
  let tEnd := tEn.map fun q => npRound (q * 1000)
  let nSpikes := nSp.map npRound
  let buf0 := List.replicate (neuronID.length * 10) 0
  let buf1 ← sliceAssign buf0 0 10 (neuronID.map fun (v : ℤ) => uint8 (v >>> 8))
  let buf2 ← sliceAssign buf1 1 10 (neuronID.map fun (v : ℤ) => uint8 v)
  let buf3 ← sliceAssign buf2 2 10 (tStart.map fun (v : ℤ) => uint8 (v >>> 16))
  let buf4 ← sliceAssign buf3 3 10 (tStart.map fun (v : ℤ) => uint8 (v >>> 8))
  let buf5 ← sliceAssign buf4 4 10 (tStart.map fun (v : ℤ) => uint8 v)
  let buf6 ← sliceAssign buf5 5 10 (tEnd.map fun (v : ℤ) => uint8 (v >>> 16))
  let buf7 ← sliceAssign buf6 6 10 (tEnd.map fun (v : ℤ) => uint8 (v >>> 8))
  let buf8 ← sliceAssign buf7 7 10 (tEnd.map fun (v : ℤ) => uint8 v)
  let buf9 ← sliceAssign buf8 8 10 (nSpikes.map fun (v : ℤ) => uint8 (v >>> 8))
  sliceAssign buf9 9 10 (nSpikes.map fun (v : ℤ) => uint8 v)

/-- A dense rank-4 tensor `(channel, height, width, timeBin)`: the shape and
a total valuation of the cells.  Cells outside the shape are never read or
written by the operations below. -/
structure Tensor4 where
  s0 : ℕ
  s1 : ℕ
  s2 : ℕ
  s3 : ℕ
  val : ℕ → ℕ → ℕ → ℕ → ℚ

/-- A dense rank-3 tensor `(channel, height, timeBin)`. -/
structure Tensor3 where
  s0 : ℕ
  s1 : ℕ
  s2 : ℕ
  val : ℕ → ℕ → ℕ → ℚ

/-- A numpy array as passed to `spikeArrayToEvent` / returned by
`toSpikeArray`: rank 3, rank 4, or any other rank (for which the code
raises before looking at any cell). -/
inductive SpikeMat where
  | mk3 : Tensor3 → SpikeMat
  | mk4 : Tensor4 → SpikeMat
  | other : ℕ → SpikeMat

/-- The shape tuple of a `SpikeMat`. -/
def SpikeMat.shape : SpikeMat → List ℕ
  | .mk3 T => [T.s0, T.s1, T.s2]
  | .mk4 T => [T.s0, T.s1, T.s2, T.s3]
  | .other _ => []

/-- Write value `v` at cell `z` (in-place element assignment). -/
def Tensor4.setCell (T : Tensor4) (z : ℕ × ℕ × ℕ × ℕ) (v : ℚ) : Tensor4 :=
  { T with val := fun a b c d => if (a, b, c, d) = z then v else T.val a b c d }

/-- numpy integer indexing along an axis of size `n`: a non-negative index
must be `< n`, a negative index wraps to `i + n`; anything else is an
`IndexError`. -/
def normIndex (i : ℤ) (n : ℕ) : Except String ℕ :=
  if 0 ≤ i ∧ i < (n : ℤ) then .ok i.toNat
  else if -(n : ℤ) ≤ i ∧ i < 0 then .ok (i + n).toNat
  else .error "index out of bounds"

/-- The cell written by event `i` in the `dim = 1` scatter:
`emptyTensor[pEvent[i], 0, xEvent[i], tEvent[i]]` with
`xEvent = round(x)`, `pEvent = round(p)`, `tEvent = round(t/samplingTime)`. -/
def hitCell1 (TD : event) (T : Tensor4) (samplingTime : ℚ) (i : ℕ) :
    Except String (ℕ × ℕ × ℕ × ℕ) := do
  let c ← normIndex (npRound (TD.p.getD i 0)) T.s0
  let h ← normIndex 0 T.s1
  let w ← normIndex (npRound (TD.x.getD i 0)) T.s2
  let tb ← normIndex (npRound (TD.t.getD i 0 / samplingTime)) T.s3
  pure (c, h, w, tb)

/-- The cell written by event `i` in the `dim = 2` scatter:
`emptyTensor[pEvent[i], yEvent[i], xEvent[i], tEvent[i]]`. -/
def hitCell2 (TD : event) (T : Tensor4) (samplingTime : ℚ) (i : ℕ) :
    Except String (ℕ × ℕ × ℕ × ℕ) := do
  let c ← normIndex (npRound (TD.p.getD i 0)) T.s0
  let h ← normIndex (npRound (TD.yD.getD i 0)) T.s1
  let w ← normIndex (npRound (TD.x.getD i 0)) T.s2
  let tb ← normIndex (npRound (TD.t.getD i 0 / samplingTime)) T.s3
  pure (c, h, w, tb)

/-- `validInd` of the `dim = 1` scatter: indices of the events whose rounded
coordinates pass the (upper-bound only) comparisons
`x < shape[2] & p < shape[0] & t < shape[3]`. -/
def validInd1 (TD : event) (T : Tensor4) (samplingTime : ℚ) : List ℕ :=
  (List.range TD.x.length).filter fun i =>
    decide (npRound (TD.x.getD i 0) < (T.s2 : ℤ) ∧
            npRound (TD.p.getD i 0) < (T.s0 : ℤ) ∧
            npRound (TD.t.getD i 0 / samplingTime) < (T.s3 : ℤ))

/-- `validInd` of the `dim = 2` scatter (adds `y < shape[1]`). -/
def validInd2 (TD : event) (T : Tensor4) (samplingTime : ℚ) : List ℕ :=
  (List.range TD.x.length).filter fun i =>
    decide (npRound (TD.x.getD i 0) < (T.s2 : ℤ) ∧
            npRound (TD.yD.getD i 0) < (T.s1 : ℤ) ∧
            npRound (TD.p.getD i 0) < (T.s0 : ℤ) ∧
            npRound (TD.t.getD i 0 / samplingTime) < (T.s3 : ℤ))

/-- The fancy-indexed assignment: write `v` at the cell of each listed event
index in order (all writes store the same value, `1/samplingTime`). -/
def scatterFold (hits : ℕ → Except String (ℕ × ℕ × ℕ × ℕ)) (v : ℚ)
    (T : Tensor4) (l : List ℕ) : Except String Tensor4 :=
  l.foldlM (fun acc i => do
    let z ← hits i
    pure (acc.setCell z v)) T

/-- `event.toSpikeTensor`: scatter the events into the caller-supplied
tensor.  The shape fields are never modified along the fold, so the bound
checks use `emptyTensor`'s shape exactly as the source reads
`emptyTensor.shape`.  The equal-length guard models the errors numpy
raises when the columns of the container are ragged (boolean mask
broadcasting / fancy-index lookup); every container built by `event.init`
from a decode has index-aligned columns.  A `dim` other than 1 or 2 falls
through both branches and returns the tensor unchanged. -/
def event.toSpikeTensor (TD : event) (emptyTensor : Tensor4) (samplingTime : ℚ) :
    Except String Tensor4 :=
  if TD.dim = 1 then
    if TD.x.length = TD.p.length ∧ TD.p.length = TD.t.length then
      scatterFold (hitCell1 TD emptyTensor samplingTime) (1 / samplingTime)
        emptyTensor (validInd1 TD emptyTensor samplingTime)
    else .error "operands could not be broadcast together"
  else if TD.dim = 2 then
    match TD.y with
    | none => .error "unsupported operand type for round: NoneType"
    | some yl =>
      if TD.x.length = yl.length ∧ yl.length = TD.p.length ∧ TD.p.length = TD.t.length then
        scatterFold (hitCell2 TD emptyTensor samplingTime) (1 / samplingTime)
          emptyTensor (validInd2 TD emptyTensor samplingTime)
      else .error "operands could not be broadcast together"
  else .ok emptyTensor

/-- `np.zeros` rejects a negative dimension. -/
def npZerosDim (d : ℤ) : Except String ℕ :=
  if 0 ≤ d then .ok d.toNat else .error "negative dimensions are not allowed"

/-- `max()` of an empty column raises. -/
def expectSome {α : Type} (o : Option α) (msg : String) : Except String α :=
  match o with
  | none => .error msg
  | some a => .ok a

/-- `event.toSpikeArray`: build the zero frame (auto-sizing each axis as
`np.round(max(coordinate)+1)` and `np.round(max(t)/samplingTime+1)` when no
`dim` is supplied), scatter with `toSpikeTensor`, and reshape.  For
`dim = 1` the frame is `(d0, 1, d1, d2)` and the final reshape to
`(d0, d1, d2)` drops the singleton axis (row-major order), so the rank-3
result reads the frame at height index 0.  An explicit `dim` tuple of the
wrong arity raises (indexing `dim[k]` / reshape), and a container whose
`dim` is neither 1 nor 2 raises (`frame` is used before assignment). -/
def event.toSpikeArray (TD : event) (samplingTime : ℚ) (dim : Option (List ℤ)) :
    Except String SpikeMat :=
  if TD.dim = 1 then do
    let d ← match dim with
      | some l => pure l
      | none => do
        let mp ← expectSome (listMax TD.p) "max arg is an empty sequence"
        let mx ← expectSome (listMax TD.x) "max arg is an empty sequence"
        let mt ← expectSome (listMax TD.t) "max arg is an empty sequence"
        pure [npRound (mp + 1), npRound (mx + 1), npRound (mt / samplingTime + 1)]
    match d with
    | [d0, d1, d2] => do
      let s0 ← npZerosDim d0
      let s1 ← npZerosDim d1
      let s2 ← npZerosDim d2
      let frame : Tensor4 := ⟨s0, 1, s1, s2, fun _ _ _ _ => 0⟩
      let T ← TD.toSpikeTensor frame samplingTime
      pure (SpikeMat.mk3 ⟨T.s0, T.s2, T.s3, fun c w tb => T.val c 0 w tb⟩)
    | _ => .error "tuple index out of range"
  else if TD.dim = 2 then do
    let d ← match dim with
      | some l => pure l
      | none => do
        let mp ← expectSome (listMax TD.p) "max arg is an empty sequence"
        let my ← expectSome (listMax TD.yD) "max arg is an empty sequence"
        let mx ← expectSome (listMax TD.x) "max arg is an empty sequence"
        let mt ← expectSome (listMax TD.t) "max arg is an empty sequence"
        pure [npRound (mp + 1), npRound (my + 1), npRound (mx + 1),
              npRound (mt / samplingTime + 1)]
    match d with
    | [d0, d1, d2, d3] => do
      let s0 ← npZerosDim d0
      let s1 ← npZerosDim d1
      let s2 ← npZerosDim d2
      let s3 ← npZerosDim d3
      let frame : Tensor4 := ⟨s0, s1, s2, s3, fun _ _ _ _ => 0⟩
      let T ← TD.toSpikeTensor frame samplingTime
      pure (SpikeMat.mk4 T)
    | _ => .error "tuple index out of range"
  else .error "local variable frame referenced before assignment"

/-- `np.argwhere(spikeMat > 0)` for a rank-3 array: the in-range positive
cells in row-major (lexicographic) order. -/
def argwhere3 (T : Tensor3) : List (ℕ × ℕ × ℕ) :=
  (List.range T.s0).flatMap fun c =>
    (List.range T.s1).flatMap fun h =>
      ((List.range T.s2).filter fun tb => decide (0 < T.val c h tb)).map fun tb => (c, h, tb)

/-- `np.argwhere(spikeMat > 0)` for a rank-4 array. -/
def argwhere4 (T : Tensor4) : List (ℕ × ℕ × ℕ × ℕ) :=
  (List.range T.s0).flatMap fun c =>
    (List.range T.s1).flatMap fun h =>
      (List.range T.s2).flatMap fun w =>
        ((List.range T.s3).filter fun tb => decide (0 < T.val c h w tb)).map
          fun tb => (c, h, w, tb)

/-- `spikeArrayToEvent`: gather the positive cells into the columns of a new
`event` (timestamps are `binIndex * samplingTime`); rank 3 gives a 1-D
container (`y` absent), rank 4 a 2-D one, and any other rank raises. -/
def spikeArrayToEvent (spikeMat : SpikeMat) (samplingTime : ℚ) : Except String event :=
  match spikeMat with
  | .mk3 T =>
    let spikeEvent := argwhere3 T
    let xEvent := spikeEvent.map fun z => ((z.2.1 : ℕ) : ℚ)
    let pEvent := spikeEvent.map fun z => ((z.1 : ℕ) : ℚ)
    let tEvent := spikeEvent.map fun z => ((z.2.2 : ℕ) : ℚ)
    event.init xEvent none pEvent (tEvent.map fun q => q * samplingTime)
  | .mk4 T =>
    let spikeEvent := argwhere4 T
    let xEvent := spikeEvent.map fun z => ((z.2.2.1 : ℕ) : ℚ)
    let yEvent := spikeEvent.map fun z => ((z.2.1 : ℕ) : ℚ)
    let pEvent := spikeEvent.map fun z => ((z.1 : ℕ) : ℚ)
    let tEvent := spikeEvent.map fun z => ((z.2.2.2 : ℕ) : ℚ)
    event.init xEvent (some yEvent) pEvent (tEvent.map fun q => q * samplingTime)
  | .other _ => .error "Expected numpy array of 3 or 4 dimension"

/-! ### Basic lemmas about the embedding -/

theorem exceptBind_ok {α β : Type} (a : α) (f : α → Except String β) :
    (Except.ok a >>= f) = f a := rfl

theorem exceptBind_error {α β : Type} (e : String) (f : α → Except String β) :
    ((Except.error e : Except String α) >>= f) = Except.error e := rfl

theorem foldl_min_sub (rest : List ℚ) (a c : ℚ) :
    (rest.map (fun v => v - c)).foldl min (a - c) = (rest.foldl min a) - c := by
  induction rest generalizing a with
  | nil => rfl
  | cons b rest ih =>
    simp only [List.map_cons, List.foldl_cons, min_sub_sub_right]
    exact ih (min a b)

theorem listMin_some_of_ne_nil {l : List ℚ} (h : l ≠ []) : ∃ m, listMin l = some m := by
  cases l with
  | nil => exact absurd rfl h
  | cons a rest => exact ⟨rest.foldl min a, rfl⟩

/-- A fold of `max` starting at `a` returns either `a` or a member of the list. -/
theorem foldl_max_mem (l : List ℚ) (a : ℚ) : l.foldl max a = a ∨ l.foldl max a ∈ l := by
  induction l generalizing a with
  | nil => exact Or.inl rfl
  | cons b rest ih =>
    simp only [List.foldl_cons]
    rcases ih (max a b) with h | h
    · rcases max_choice a b with hm | hm
      · exact Or.inl (h.trans hm)
      · exact Or.inr (by rw [h, hm]; exact List.mem_cons_self b rest)
    · exact Or.inr (List.mem_cons_of_mem b h)

theorem listMax_mem {l : List ℚ} {m : ℚ} (h : listMax l = some m) : m ∈ l := by
  cases l with
  | nil => simp [listMax] at h
  | cons a rest =>
    simp only [listMax, Option.some.injEq] at h
    rcases foldl_max_mem rest a with h2 | h2
    · rw [← h, h2]; exact List.mem_cons_self a rest
    · rw [← h]; exact List.mem_cons_of_mem a h2

theorem npRound_intCast (k : ℤ) : npRound ((k : ℚ)) = k := by
  simp [npRound, Int.fract_intCast, Int.floor_intCast]

/-- `np.round(q)` is `⌊q⌋` when the fractional part is below one half. -/
theorem npRound_eq_floor {q : ℚ} (h : Int.fract q < 1/2) : npRound q = ⌊q⌋ := by
  unfold npRound
  rw [if_pos h]

/-- `np.round(q)` is `⌊q⌋ + 1` when the fractional part exceeds one half. -/
theorem npRound_eq_floor_add_one {q : ℚ} (h : 1/2 < Int.fract q) : npRound q = ⌊q⌋ + 1 := by
  have h2 : ¬ Int.fract q < 1/2 := by linarith
  unfold npRound
  rw [if_neg h2, if_pos h]

theorem npRound_nonneg {q : ℚ} (h : 0 ≤ q) : 0 ≤ npRound q := by
  have hf : (0:ℤ) ≤ ⌊q⌋ := Int.floor_nonneg.mpr h
  unfold npRound
  split
  · exact hf
  · split
    · omega
    · split
      · exact hf
      · omega

/-! ### C2: length validation on decode -/

/-- C2 counterexample: the claim says a 4-byte buffer (record size 5, length
`recordSize - 1`) makes `read1Dspikes` raise MalformedFile; in fact the
decode succeeds (numpy strided slicing simply yields ragged columns that
broadcast). -/
theorem c2_counterexample_decode_len4_succeeds :
    (read1Dspikes [0, 0, 0, 0]).isOk = true := rfl

/-- C2 (amended): none of the four decoders validates the buffer length.
For any byte contents, a buffer of length `recordSize - 1` or
`recordSize + 1` is decoded without raising: the trailing short slices
have length 0 or 1 and numpy broadcasting makes every elementwise
combination succeed, so a (truncated/garbled) result is returned. -/
theorem c2_malformed_length_not_rejected (n0 n1 n2 n3 n4 n5 n6 n7 n8 n9 n10 : ℕ) :
    (read1Dspikes [n0, n1, n2, n3]).isOk = true ∧
    (read1Dspikes [n0, n1, n2, n3, n4, n5]).isOk = true ∧
    (read2Dspikes [n0, n1, n2, n3]).isOk = true ∧
    (read2Dspikes [n0, n1, n2, n3, n4, n5]).isOk = true ∧
    (read3Dspikes [n0, n1, n2, n3, n4, n5]).isOk = true ∧
    (read3Dspikes [n0, n1, n2, n3, n4, n5, n6, n7]).isOk = true ∧
    (read1DnumSpikes [n0, n1, n2, n3, n4, n5, n6, n7, n8]).isOk = true ∧
    (read1DnumSpikes [n0, n1, n2, n3, n4, n5, n6, n7, n8, n9, n10]).isOk = true :=
  ⟨rfl, rfl, rfl, rfl, rfl, rfl, rfl, rfl⟩

/-! ### C9: zero-event construction -/

/-- C9: constructing a container with an empty `p` column fails (the
normalization takes `min` of the column), so decoding an empty byte buffer
and gathering from an all-zero dense tensor both raise instead of
returning an empty container. -/
theorem c9_zero_event_construction_fails :
    (∀ (xE tE : List ℚ) (yE : Option (List ℚ)), (event.init xE yE [] tE).isOk = false) ∧
    (read1Dspikes []).isOk = false ∧
    (read2Dspikes []).isOk = false ∧
    (read3Dspikes []).isOk = false ∧
    (∀ (s0 s1 s2 : ℕ) (st : ℚ),
      (spikeArrayToEvent (.mk3 ⟨s0, s1, s2, fun _ _ _ => 0⟩) st).isOk = false) ∧
    (∀ (s0 s1 s2 s3 : ℕ) (st : ℚ),
      (spikeArrayToEvent (.mk4 ⟨s0, s1, s2, s3, fun _ _ _ _ => 0⟩) st).isOk = false) := by
  refine ⟨fun _ _ _ => rfl, rfl, rfl, rfl, ?_, ?_⟩
  · intro s0 s1 s2 st
    have hz : argwhere3 ⟨s0, s1, s2, fun _ _ _ => 0⟩ = [] := by
      simp [argwhere3]
    simp [spikeArrayToEvent, hz, event.init, listMin, Except.isOk, Except.toBool]
  · intro s0 s1 s2 s3 st
    have hz : argwhere4 ⟨s0, s1, s2, s3, fun _ _ _ _ => 0⟩ = [] := by
      simp [argwhere4]
    simp [spikeArrayToEvent, hz, event.init, listMin, Except.isOk, Except.toBool]

/-! ### C7: polarity normalization -/

/-- C7: any successfully constructed container has `min(p) = 0`, because
the constructor subtracts the minimum from the `p` column. -/
theorem c7_polarity_normalization (xE : List ℚ) (yE : Option (List ℚ)) (pE tE : List ℚ)
    (ev : event) (h : event.init xE yE pE tE = .ok ev) :
    listMin ev.p = some 0 := by
  cases pE with
  | nil => simp [event.init, listMin] at h
  | cons a rest =>
    simp only [event.init, listMin] at h
    injection h with h
    subst h
    simp only [listMin, List.map_cons]
    rw [foldl_min_sub rest a (rest.foldl min a), sub_self]

/-- Witness for C7 at a concrete construction (`p = [3,5]`, normalized to
`[0,2]`). -/
theorem c7_polarity_normalization_witness :
    listMin ({ dim := 1, x := [0], y := none, p := [0, 2], t := [0] } : event).p = some 0 :=
  c7_polarity_normalization [0] none [3, 5] [0] _ (by norm_num [event.init, listMin])

/-! ### C6: ownership of the caller's buffers -/

/-- C6 counterexample: the claim says the caller's `p` buffer is unchanged
by construction; passing the ndarray `[1, 2]` leaves the caller's buffer
holding `[0, 1]`. -/
theorem c6_ownership_counterexample :
    callerPBufferAfterInit [1, 2] = .ok [0, 1] ∧ ((0:ℚ) ≠ 1 ∨ (1:ℚ) ≠ 2) := by
  constructor
  · norm_num [callerPBufferAfterInit, listMin]
  · norm_num

/-- C6 (amended): the constructor aliases an ndarray argument (its type
dispatch never copies), so the in-place normalization rewrites the
caller's `p` buffer to `p - min(p)`; whenever `min(p) ≠ 0` the caller's
buffer is actually changed. -/
theorem c6_ownership_amended (pE : List ℚ) (m : ℚ) (h : listMin pE = some m) :
    callerPBufferAfterInit pE = .ok (pE.map (fun v => v - m)) ∧
    (m ≠ 0 → pE.map (fun v => v - m) ≠ pE) := by
  constructor
  · simp [callerPBufferAfterInit, h]
  · intro hm heq
    cases pE with
    | nil => simp [listMin] at h
    | cons a rest =>
      simp only [List.map_cons, List.cons.injEq] at heq
      have : a - m = a := heq.1
      have : m = 0 := by linarith [this]
      exact hm this

/-- Witness for C6 (amended) at the ndarray `p = [2, 3]` (minimum 2): the
caller's buffer ends up `[0, 1]`, which differs from `[2, 3]`. -/
theorem c6_ownership_witness :
    callerPBufferAfterInit [2, 3] = .ok ([2, 3].map (fun v => v - 2)) ∧
    ([2, 3].map (fun v => v - 2) : List ℚ) ≠ [2, 3] := by
  have h := c6_ownership_amended [2, 3] 2 (by norm_num [listMin])
  exact ⟨h.1, h.2 (by norm_num)⟩

/-! ### C3: summary-record shape mismatch -/

theorem sliceCount_mul10 (n k : ℕ) (hk : k < 10) : sliceCount (n * 10) k 10 = n := by
  unfold sliceCount
  split <;> omega

theorem sliceAssign_ok_len {b v : List ℕ} {k n : ℕ} (hbuf : b.length = n * 10)
    (hvals : v.length = n) (hk : k < 10) :
    ∃ out, sliceAssign b k 10 v = .ok out ∧ out.length = n * 10 := by
  have h : v.length = sliceCount b.length k 10 := by
    rw [hbuf, sliceCount_mul10 n k hk, hvals]
  refine ⟨_, by unfold sliceAssign; rw [if_pos h], ?_⟩
  simp [← hbuf]

theorem sliceAssign_err_len {b v : List ℕ} {k n : ℕ} (hbuf : b.length = n * 10)
    (hvals : v.length ≠ n) (hk : k < 10) :
    sliceAssign b k 10 v =
      .error "attempt to assign bytes to extended slice of different size" := by
  have h : v.length ≠ sliceCount b.length k 10 := by
    rw [hbuf, sliceCount_mul10 n k hk]; exact hvals
  unfold sliceAssign
  rw [if_neg h]

/-- C3: the summary encoder raises whenever the four input sequences do not
all have the same length, and then no bytes reach the output file (the
buffer is sized from `neuronID` and the first strided assignment whose
column length differs from the slice raises before the file is opened). -/
theorem c3_summary_shape_mismatch_raises (nID tSt tEn nSp : List ℚ)
    (h : ¬ (nID.length = tSt.length ∧ tSt.length = tEn.length ∧ tEn.length = nSp.length)) :
    (encode1DnumSpikes nID tSt tEn nSp).isOk = false := by
  simp only [encode1DnumSpikes]
  have hbuf0 : (List.replicate ((nID.map npRound).length * 10) 0).length = nID.length * 10 := by
    simp
  obtain ⟨b1, e1, l1⟩ :=
    sliceAssign_ok_len (n := nID.length) (k := 0)
      (v := (nID.map npRound).map fun (v : ℤ) => uint8 (v >>> 8)) hbuf0 (by simp) (by omega)
  rw [e1, exceptBind_ok]
  obtain ⟨b2, e2, l2⟩ :=
    sliceAssign_ok_len (n := nID.length) (k := 1)
      (v := (nID.map npRound).map fun (v : ℤ) => uint8 v) l1 (by simp) (by omega)
  rw [e2, exceptBind_ok]
  by_cases h2 : tSt.length = nID.length
  · obtain ⟨b3, e3, l3⟩ :=
      sliceAssign_ok_len (n := nID.length) (k := 2)
        (v := (tSt.map fun q => npRound (q * 1000)).map fun (v : ℤ) => uint8 (v >>> 16))
        l2 (by simp [h2]) (by omega)
    rw [e3, exceptBind_ok]
    obtain ⟨b4, e4, l4⟩ :=
      sliceAssign_ok_len (n := nID.length) (k := 3)
        (v := (tSt.map fun q => npRound (q * 1000)).map fun (v : ℤ) => uint8 (v >>> 8))
        l3 (by simp [h2]) (by omega)
    rw [e4, exceptBind_ok]
    obtain ⟨b5, e5, l5⟩ :=
      sliceAssign_ok_len (n := nID.length) (k := 4)
        (v := (tSt.map fun q => npRound (q * 1000)).map fun (v : ℤ) => uint8 v)
        l4 (by simp [h2]) (by omega)
    rw [e5, exceptBind_ok]
    by_cases h3 : tEn.length = nID.length
    · obtain ⟨b6, e6, l6⟩ :=
        sliceAssign_ok_len (n := nID.length) (k := 5)
          (v := (tEn.map fun q => npRound (q * 1000)).map fun (v : ℤ) => uint8 (v >>> 16))
          l5 (by simp [h3]) (by omega)
      rw [e6, exceptBind_ok]
      obtain ⟨b7, e7, l7⟩ :=
        sliceAssign_ok_len (n := nID.length) (k := 6)
          (v := (tEn.map fun q => npRound (q * 1000)).map fun (v : ℤ) => uint8 (v >>> 8))
          l6 (by simp [h3]) (by omega)
      rw [e7, exceptBind_ok]
      obtain ⟨b8, e8, l8⟩ :=
        sliceAssign_ok_len (n := nID.length) (k := 7)
          (v := (tEn.map fun q => npRound (q * 1000)).map fun (v : ℤ) => uint8 v)
          l7 (by simp [h3]) (by omega)
      rw [e8, exceptBind_ok]
      have h4 : nSp.length ≠ nID.length := by
        intro h4
        exact h ⟨h2.symm, by omega, by omega⟩
      rw [sliceAssign_err_len (n := nID.length) (k := 8)
          (v := (nSp.map npRound).map fun (v : ℤ) => uint8 (v >>> 8))
          l8 (by simpa using h4) (by omega),
        exceptBind_error]
      rfl
    · rw [sliceAssign_err_len (n := nID.length) (k := 5)
          (v := (tEn.map fun q => npRound (q * 1000)).map fun (v : ℤ) => uint8 (v >>> 16))
          l5 (by simpa using h3) (by omega),
        exceptBind_error]
      rfl
  · rw [sliceAssign_err_len (n := nID.length) (k := 2)
        (v := (tSt.map fun q => npRound (q * 1000)).map fun (v : ℤ) => uint8 (v >>> 16))
        l2 (by simpa using h2) (by omega),
      exceptBind_error]
    rfl

/-- Witness for C3 at `neuronID` of length 3 and `spikeCount` of length 2. -/
theorem c3_summary_shape_mismatch_witness :
    (¬ (([0, 0, 0] : List ℚ).length = ([0, 0, 0] : List ℚ).length ∧
        ([0, 0, 0] : List ℚ).length = ([0, 0, 0] : List ℚ).length ∧
        ([0, 0, 0] : List ℚ).length = ([0, 0] : List ℚ).length)) ∧
    (encode1DnumSpikes [0, 0, 0] [0, 0, 0] [0, 0, 0] [0, 0]).isOk = false :=
  ⟨by decide, c3_summary_shape_mismatch_raises [0, 0, 0] [0, 0, 0] [0, 0, 0] [0, 0]
    (by decide)⟩

/-! ### C1: round-trip exactness -/

theorem npRound_natCast (n : ℕ) : npRound ((n : ℕ) : ℚ) = n := by
  have h : (((n : ℤ)) : ℚ) = ((n : ℕ) : ℚ) := by push_cast; ring
  rw [← h, npRound_intCast]

/-- C1 (code-bug evaluation): round-tripping is broken inside the claimed
bit widths.  The 1D encoder writes the first byte as
`np.uint8((x >> 8) & 0xFF00)`, which is always 0 (the mask keeps only
bits 8-15 of `x >> 8`, and the `uint8` cast then drops them), so the
event `x = 256` — inside the documented 16-bit neuronID field — decodes
back to `x = 0`.  The 3D encoder similarly writes byte 1 as
`((x << 4) & 0xFF) | ((y >> 8) & 0xFF00)`, losing the high nibble of `y`,
so `y = 4095` — inside the documented 12-bit field — decodes back to
`y = 255`.  Both contradict the encoders' own docstrings, which state the
fields hold the full 16-bit neuronID / 12-bit yID. -/
theorem c1_roundTrip_codeBug_eval :
    encode1Dspikes { dim := 1, x := [256], y := none, p := [0], t := [1] } =
      .ok [0, 0, 0, 3, 232] ∧
    read1Dspikes [0, 0, 0, 3, 232] =
      .ok { dim := 1, x := [0], y := none, p := [0], t := [1] } ∧
    ((0 : ℚ) ≠ 256) ∧
    encode3Dspikes { dim := 2, x := [0], y := some [4095], p := [0], t := [1] } =
      .ok [0, 0, 255, 0, 0, 3, 232] ∧
    read3Dspikes [0, 0, 255, 0, 0, 3, 232] =
      .ok { dim := 2, x := [0], y := some [255], p := [0], t := [1] } ∧
    ((255 : ℚ) ≠ 4095) := by
  have e256 : npRound ((256 : ℚ)) = 256 := by
    have h : ((256 : ℚ)) = ((256 : ℕ) : ℚ) := by norm_num
    rw [h, npRound_natCast]; norm_num
  have e0 : npRound ((0 : ℚ)) = 0 := by
    have h : ((0 : ℚ)) = ((0 : ℕ) : ℚ) := by norm_num
    rw [h, npRound_natCast]; norm_num
  have e4095 : npRound ((4095 : ℚ)) = 4095 := by
    have h : ((4095 : ℚ)) = ((4095 : ℕ) : ℚ) := by norm_num
    rw [h, npRound_natCast]; norm_num
  have e1000 : npRound ((1 : ℚ) * 1000) = 1000 := by
    have h : ((1 : ℚ) * 1000) = ((1000 : ℕ) : ℚ) := by norm_num
    rw [h, npRound_natCast]; norm_num
  refine ⟨?_, ?_, by norm_num, ?_, ?_, by norm_num⟩
  · simp only [encode1Dspikes, List.map_cons, List.map_nil, e256, e0, e1000]
    decide
  · have hd : read1Dspikes [0, 0, 0, 3, 232] =
        .ok ⟨1, [((0 : ℕ) : ℚ)], none, [((0 : ℕ) : ℚ) - ((0 : ℕ) : ℚ)],
          [((1000 : ℕ) : ℚ) / 1000]⟩ := rfl
    rw [hd]
    simp only [Except.ok.injEq, event.mk.injEq]
    norm_num
  · simp only [encode3Dspikes, event.yD, Option.getD_some, List.map_cons, List.map_nil,
      e0, e4095, e1000]
    decide
  · have hd : read3Dspikes [0, 0, 255, 0, 0, 3, 232] =
        .ok ⟨2, [((0 : ℕ) : ℚ)], some [((255 : ℕ) : ℚ)],
          [((0 : ℕ) : ℚ) - ((0 : ℕ) : ℚ)], [((1000 : ℕ) : ℚ) / 1000]⟩ := rfl
    rw [hd]
    simp only [Except.ok.injEq, event.mk.injEq]
    norm_num

/-! ### C8: dense-to-sparse gather -/

/-- Membership in `argwhere3`: exactly the in-range cells with positive value. -/
theorem mem_argwhere3 (T : Tensor3) (c h tb : ℕ) :
    (c, h, tb) ∈ argwhere3 T ↔ c < T.s0 ∧ h < T.s1 ∧ tb < T.s2 ∧ 0 < T.val c h tb := by
  simp only [argwhere3, List.mem_flatMap, List.mem_map, List.mem_filter, List.mem_range,
    decide_eq_true_eq, Prod.mk.injEq]
  constructor
  · rintro ⟨c', hc', h', hh', tb', ⟨htb', hval⟩, rfl, rfl, rfl⟩
    exact ⟨hc', hh', htb', hval⟩
  · rintro ⟨hc, hh, htb, hval⟩
    exact ⟨c, hc, h, hh, tb, ⟨htb, hval⟩, rfl, rfl, rfl⟩

/-- `argwhere3` lists each cell at most once. -/
theorem nodup_argwhere3 (T : Tensor3) : (argwhere3 T).Nodup := by
  unfold argwhere3
  refine List.nodup_flatMap.2 ⟨?_, ?_⟩
  · intro c _
    refine List.nodup_flatMap.2 ⟨?_, ?_⟩
    · intro h _
      exact (((List.nodup_range _).filter _).map (fun a b hab => by simpa using hab))
    · refine ((List.nodup_range _).imp ?_)
      intro h1 h2 hne
      intro z hz1 hz2
      simp only [Function.onFun, List.mem_map, List.mem_filter] at hz1 hz2
      obtain ⟨tb1, _, rfl⟩ := hz1
      obtain ⟨tb2, _, heq⟩ := hz2
      simp only [Prod.mk.injEq] at heq
      exact hne heq.2.1.symm
  · refine ((List.nodup_range _).imp ?_)
    intro c1 c2 hne
    intro z hz1 hz2
    simp only [Function.onFun, List.mem_flatMap, List.mem_map, List.mem_filter] at hz1 hz2
    obtain ⟨h1, _, tb1, _, rfl⟩ := hz1
    obtain ⟨h2, _, tb2, _, heq⟩ := hz2
    simp only [Prod.mk.injEq] at heq
    exact hne heq.1.symm

/-- Membership in `argwhere4`. -/
theorem mem_argwhere4 (T : Tensor4) (c h w tb : ℕ) :
    (c, h, w, tb) ∈ argwhere4 T ↔
      c < T.s0 ∧ h < T.s1 ∧ w < T.s2 ∧ tb < T.s3 ∧ 0 < T.val c h w tb := by
  simp only [argwhere4, List.mem_flatMap, List.mem_map, List.mem_filter, List.mem_range,
    decide_eq_true_eq, Prod.mk.injEq]
  constructor
  · rintro ⟨c', hc', h', hh', w', hw', tb', ⟨htb', hval⟩, rfl, rfl, rfl, rfl⟩
    exact ⟨hc', hh', hw', htb', hval⟩
  · rintro ⟨hc, hh, hw, htb, hval⟩
    exact ⟨c, hc, h, hh, w, hw, tb, ⟨htb, hval⟩, rfl, rfl, rfl, rfl⟩

/-- `argwhere4` lists each cell at most once. -/
theorem nodup_argwhere4 (T : Tensor4) : (argwhere4 T).Nodup := by
  unfold argwhere4
  refine List.nodup_flatMap.2 ⟨?_, ?_⟩
  · intro c _
    refine List.nodup_flatMap.2 ⟨?_, ?_⟩
    · intro h _
      refine List.nodup_flatMap.2 ⟨?_, ?_⟩
      · intro w _
        exact (((List.nodup_range _).filter _).map (fun a b hab => by simpa using hab))
      · refine ((List.nodup_range _).imp ?_)
        intro w1 w2 hne z hz1 hz2
        simp only [Function.onFun, List.mem_map, List.mem_filter] at hz1 hz2
        obtain ⟨tb1, _, rfl⟩ := hz1
        obtain ⟨tb2, _, heq⟩ := hz2
        simp only [Prod.mk.injEq] at heq
        exact hne heq.2.2.1.symm
    · refine ((List.nodup_range _).imp ?_)
      intro h1 h2 hne z hz1 hz2
      simp only [Function.onFun, List.mem_flatMap, List.mem_map, List.mem_filter] at hz1 hz2
      obtain ⟨w1, _, tb1, _, rfl⟩ := hz1
      obtain ⟨w2, _, tb2, _, heq⟩ := hz2
      simp only [Prod.mk.injEq] at heq
      exact hne heq.2.1.symm
  · refine ((List.nodup_range _).imp ?_)
    intro c1 c2 hne z hz1 hz2
    simp only [Function.onFun, List.mem_flatMap, List.mem_map, List.mem_filter] at hz1 hz2
    obtain ⟨h1, _, w1, _, tb1, _, rfl⟩ := hz1
    obtain ⟨h2, _, w2, _, tb2, _, heq⟩ := hz2
    simp only [Prod.mk.injEq] at heq
    exact hne heq.1.symm

/-- Unfolding of the rank-3 gather once the minimum channel is known. -/
theorem spikeArrayToEvent3_eq (T : Tensor3) (s m : ℚ)
    (hm : listMin ((argwhere3 T).map fun z => ((z.1 : ℕ) : ℚ)) = some m) :
    spikeArrayToEvent (.mk3 T) s = .ok
      { dim := 1
        x := (argwhere3 T).map fun z => ((z.2.1 : ℕ) : ℚ)
        y := none
        p := (argwhere3 T).map fun z => ((z.1 : ℕ) : ℚ) - m
        t := (argwhere3 T).map fun z => ((z.2.2 : ℕ) : ℚ) * s } := by
  simp only [spikeArrayToEvent, event.init, hm, List.map_map]
  rfl

/-- Unfolding of the rank-4 gather once the minimum channel is known. -/
theorem spikeArrayToEvent4_eq (T : Tensor4) (s m : ℚ)
    (hm : listMin ((argwhere4 T).map fun z => ((z.1 : ℕ) : ℚ)) = some m) :
    spikeArrayToEvent (.mk4 T) s = .ok
      { dim := 2
        x := (argwhere4 T).map fun z => ((z.2.2.1 : ℕ) : ℚ)
        y := some ((argwhere4 T).map fun z => ((z.2.1 : ℕ) : ℚ))
        p := (argwhere4 T).map fun z => ((z.1 : ℕ) : ℚ) - m
        t := (argwhere4 T).map fun z => ((z.2.2.2 : ℕ) : ℚ) * s } := by
  simp only [spikeArrayToEvent, event.init, hm, List.map_map]
  rfl

/-- C8 (amended): the gather makes exactly one event per positive in-range
cell (the `argwhere` list is duplicate-free and holds exactly those cells,
in row-major order), with `x` (and `y` for rank 4) the spatial indices and
timestamp `binIndex * samplingTime`; rank 3 gives a 1-D container, rank 4 a
2-D one, and any other rank raises.  Correction to the claim: the `p`
column is NOT the raw channel index — the constructor's polarity
normalization subtracts the minimum spiking channel, so `p` is the channel
index minus that minimum. -/
theorem c8_gather_amended (T3 : Tensor3) (T4 : Tensor4) (sA sB sC : ℚ) (n : ℕ)
    (h3 : argwhere3 T3 ≠ []) (h4 : argwhere4 T4 ≠ []) :
    (∃ m ev, listMin ((argwhere3 T3).map fun z => ((z.1 : ℕ) : ℚ)) = some m ∧
      spikeArrayToEvent (.mk3 T3) sA = .ok ev ∧
      ev.dim = 1 ∧ ev.y = none ∧
      ev.x = (argwhere3 T3).map (fun z => ((z.2.1 : ℕ) : ℚ)) ∧
      ev.p = (argwhere3 T3).map (fun z => ((z.1 : ℕ) : ℚ) - m) ∧
      ev.t = (argwhere3 T3).map (fun z => ((z.2.2 : ℕ) : ℚ) * sA) ∧
      (∀ c h tb, (c, h, tb) ∈ argwhere3 T3 ↔
        (c < T3.s0 ∧ h < T3.s1 ∧ tb < T3.s2 ∧ 0 < T3.val c h tb)) ∧
      (argwhere3 T3).Nodup) ∧
    (∃ m ev, listMin ((argwhere4 T4).map fun z => ((z.1 : ℕ) : ℚ)) = some m ∧
      spikeArrayToEvent (.mk4 T4) sB = .ok ev ∧
      ev.dim = 2 ∧
      ev.x = (argwhere4 T4).map (fun z => ((z.2.2.1 : ℕ) : ℚ)) ∧
      ev.y = some ((argwhere4 T4).map (fun z => ((z.2.1 : ℕ) : ℚ))) ∧
      ev.p = (argwhere4 T4).map (fun z => ((z.1 : ℕ) : ℚ) - m) ∧
      ev.t = (argwhere4 T4).map (fun z => ((z.2.2.2 : ℕ) : ℚ) * sB) ∧
      (∀ c h w tb, (c, h, w, tb) ∈ argwhere4 T4 ↔
        (c < T4.s0 ∧ h < T4.s1 ∧ w < T4.s2 ∧ tb < T4.s3 ∧ 0 < T4.val c h w tb)) ∧
      (argwhere4 T4).Nodup) ∧
    (spikeArrayToEvent (.other n) sC).isOk = false := by
  refine ⟨?_, ?_, rfl⟩
  · obtain ⟨m, hm⟩ := listMin_some_of_ne_nil
      (l := (argwhere3 T3).map fun z => ((z.1 : ℕ) : ℚ)) (by simpa using h3)
    exact ⟨m, _, hm, spikeArrayToEvent3_eq T3 sA m hm, rfl, rfl, rfl, rfl, rfl,
      mem_argwhere3 T3, nodup_argwhere3 T3⟩
  · obtain ⟨m, hm⟩ := listMin_some_of_ne_nil
      (l := (argwhere4 T4).map fun z => ((z.1 : ℕ) : ℚ)) (by simpa using h4)
    exact ⟨m, _, hm, spikeArrayToEvent4_eq T4 sB m hm, rfl, rfl, rfl, rfl, rfl,
      mem_argwhere4 T4, nodup_argwhere4 T4⟩

/-- C8 counterexample: a rank-3 tensor whose only positive cell sits at
channel 1 gathers to an event with `p = [0]`, not `p = [1]` as the claim
("p fields equal the cell's channel indices") requires. -/
theorem c8_gather_counterexample :
    spikeArrayToEvent (.mk3 ⟨2, 1, 1, fun c _ _ => if c = 1 then 1 else 0⟩) 1 =
      .ok { dim := 1, x := [0], y := none, p := [0], t := [0] } ∧
    (([0] : List ℚ) ≠ [1]) := by
  constructor
  · have harg : argwhere3 ⟨2, 1, 1, fun c _ _ => if c = 1 then 1 else 0⟩ = [(1, 0, 0)] := by
      decide
    have hm : listMin ((argwhere3 ⟨2, 1, 1, fun c _ _ => if c = 1 then 1 else 0⟩).map
        fun z => ((z.1 : ℕ) : ℚ)) = some ((1 : ℕ) : ℚ) := by
      rw [harg]; rfl
    rw [spikeArrayToEvent3_eq _ 1 _ hm, harg]
    simp only [Except.ok.injEq, event.mk.injEq, List.map_cons, List.map_nil]
    norm_num
  · intro hc
    have : (0 : ℚ) = 1 := by injection hc
    norm_num at this

/-- Witness for C8 (amended) at concrete one-cell tensors and rank 5. -/
theorem c8_gather_witness :
    (argwhere3 ⟨1, 1, 1, fun _ _ _ => 1⟩ ≠ []) ∧
    (argwhere4 ⟨1, 1, 1, 1, fun _ _ _ _ => 1⟩ ≠ []) ∧
    (spikeArrayToEvent (.mk3 ⟨1, 1, 1, fun _ _ _ => 1⟩) 2).isOk = true ∧
    (spikeArrayToEvent (.other 5) 2).isOk = false := by
  have h3 : argwhere3 (⟨1, 1, 1, fun _ _ _ => 1⟩ : Tensor3) ≠ [] := by decide
  have h4 : argwhere4 (⟨1, 1, 1, 1, fun _ _ _ _ => 1⟩ : Tensor4) ≠ [] := by decide
  have h := c8_gather_amended ⟨1, 1, 1, fun _ _ _ => 1⟩ ⟨1, 1, 1, 1, fun _ _ _ _ => 1⟩
    2 2 2 5 h3 h4
  obtain ⟨⟨m, ev, hm, heq, -⟩, -, hother⟩ := h
  exact ⟨h3, h4, by rw [heq]; rfl, hother⟩

/-! ### The scatter (`toSpikeTensor`): C5 and C10 -/

theorem setCell_s0 (T : Tensor4) (z : ℕ × ℕ × ℕ × ℕ) (v : ℚ) : (T.setCell z v).s0 = T.s0 := rfl
theorem setCell_s1 (T : Tensor4) (z : ℕ × ℕ × ℕ × ℕ) (v : ℚ) : (T.setCell z v).s1 = T.s1 := rfl
theorem setCell_s2 (T : Tensor4) (z : ℕ × ℕ × ℕ × ℕ) (v : ℚ) : (T.setCell z v).s2 = T.s2 := rfl
theorem setCell_s3 (T : Tensor4) (z : ℕ × ℕ × ℕ × ℕ) (v : ℚ) : (T.setCell z v).s3 = T.s3 := rfl

theorem setCell_val_eq (T : Tensor4) (z : ℕ × ℕ × ℕ × ℕ) (v : ℚ) :
    (T.setCell z v).val z.1 z.2.1 z.2.2.1 z.2.2.2 = v := by
  simp [Tensor4.setCell]

theorem setCell_val_ne (T : Tensor4) (z : ℕ × ℕ × ℕ × ℕ) (v : ℚ) (a b c d : ℕ)
    (h : (a, b, c, d) ≠ z) : (T.setCell z v).val a b c d = T.val a b c d := by
  simp [Tensor4.setCell, h]

theorem normIndex_ok {i : ℤ} {n : ℕ} (h0 : 0 ≤ i) (h1 : i < (n : ℤ)) :
    normIndex i n = .ok i.toNat := by
  unfold normIndex
  rw [if_pos ⟨h0, h1⟩]

theorem scatterFold_frame (hits : ℕ → Except String (ℕ × ℕ × ℕ × ℕ)) (v : ℚ)
    (l : List ℕ) :
    ∀ (T T' : Tensor4), scatterFold hits v T l = .ok T' →
      (T'.s0 = T.s0 ∧ T'.s1 = T.s1 ∧ T'.s2 = T.s2 ∧ T'.s3 = T.s3) ∧
      ∀ a b c d, (∀ i ∈ l, hits i ≠ .ok (a, b, c, d)) → T'.val a b c d = T.val a b c d := by
  induction l with
  | nil =>
    intro T T' h
    have hT : T' = T := by
      simp only [scatterFold, List.foldlM] at h
      exact (Except.ok.injEq _ _).mp h.symm |>.symm ▸ rfl
    subst hT
    exact ⟨⟨rfl, rfl, rfl, rfl⟩, fun a b c d _ => rfl⟩
  | cons i l ih =>
    intro T T' h
    rw [scatterFold, List.foldlM_cons] at h
    cases hz : hits i with
    | error e =>
      rw [hz] at h
      simp only [exceptBind_error] at h
      cases h
    | ok z =>
      rw [hz] at h
      simp only [exceptBind_ok] at h
      have h' : scatterFold hits v (T.setCell z v) l = .ok T' := h
      obtain ⟨⟨hs0, hs1, hs2, hs3⟩, hframe⟩ := ih (T.setCell z v) T' h'
      refine ⟨⟨hs0, hs1, hs2, hs3⟩, ?_⟩
      intro a b c d hna
      have hz_ne : (a, b, c, d) ≠ z := by
        intro hcontra
        exact hna i (List.mem_cons_self i l) (by rw [hz, hcontra])
      rw [hframe a b c d (fun j hj => hna j (List.mem_cons_of_mem i hj)),
        setCell_val_ne T z v a b c d hz_ne]

theorem scatterFold_ok_of_hits (hits : ℕ → Except String (ℕ × ℕ × ℕ × ℕ)) (v : ℚ)
    (l : List ℕ) (f : ℕ → ℕ × ℕ × ℕ × ℕ) (hl : ∀ i ∈ l, hits i = .ok (f i)) :
    ∀ T : Tensor4, ∃ T', scatterFold hits v T l = .ok T' ∧
      (T'.s0 = T.s0 ∧ T'.s1 = T.s1 ∧ T'.s2 = T.s2 ∧ T'.s3 = T.s3) ∧
      (∀ a b c d, (∃ i ∈ l, f i = (a, b, c, d)) → T'.val a b c d = v) ∧
      (∀ a b c d, (¬ ∃ i ∈ l, f i = (a, b, c, d)) → T'.val a b c d = T.val a b c d) := by
  induction l with
  | nil =>
    intro T
    refine ⟨T, rfl, ⟨rfl, rfl, rfl, rfl⟩, ?_, fun a b c d _ => rfl⟩
    rintro a b c d ⟨i, hi, -⟩
    exact absurd hi (List.not_mem_nil i)
  | cons i l ih =>
    intro T
    have hi : hits i = .ok (f i) := hl i (List.mem_cons_self i l)
    obtain ⟨T', heq, ⟨hs0, hs1, hs2, hs3⟩, hwrite, hframe⟩ :=
      ih (fun j hj => hl j (List.mem_cons_of_mem i hj)) (T.setCell (f i) v)
    refine ⟨T', ?_, ⟨hs0, hs1, hs2, hs3⟩, ?_, ?_⟩
    · rw [scatterFold, List.foldlM_cons, hi, exceptBind_ok]
      exact heq
    · rintro a b c d ⟨j, hj, hfj⟩
      rcases List.mem_cons.mp hj with rfl | hj'
      · by_cases hrest : ∃ k ∈ l, f k = (a, b, c, d)
        · exact hwrite a b c d hrest
        · rw [hframe a b c d hrest, hfj]
          simpa using setCell_val_eq T (a, b, c, d) v
      · exact hwrite a b c d ⟨j, hj', hfj⟩
    · intro a b c d hno
      have hno_l : ¬ ∃ k ∈ l, f k = (a, b, c, d) := by
        rintro ⟨k, hk, hfk⟩
        exact hno ⟨k, List.mem_cons_of_mem i hk, hfk⟩
      rw [hframe a b c d hno_l]
      refine setCell_val_ne T (f i) v a b c d ?_
      intro hcontra
      exact hno ⟨i, List.mem_cons_self i l, hcontra.symm⟩

/-- Full characterisation of the `dim = 1` scatter for index-aligned
containers with non-negative rounded coordinates: it succeeds, preserves
the tensor shape, writes `1/samplingTime` at the cell of every event whose
rounded indices are inside the bounds, and leaves every cell not targeted
by such an event unchanged (in particular, out-of-bounds events are
dropped without error). -/
theorem toSpikeTensor1_spec (TD : event) (T : Tensor4) (s : ℚ)
    (hdim : TD.dim = 1)
    (hlen : TD.x.length = TD.p.length ∧ TD.p.length = TD.t.length)
    (hnn : ∀ i, i < TD.x.length → 0 ≤ npRound (TD.x.getD i 0) ∧ 0 ≤ npRound (TD.p.getD i 0) ∧
      0 ≤ npRound (TD.t.getD i 0 / s))
    (hs1 : 0 < T.s1) :
    ∃ T', TD.toSpikeTensor T s = .ok T' ∧
      (T'.s0 = T.s0 ∧ T'.s1 = T.s1 ∧ T'.s2 = T.s2 ∧ T'.s3 = T.s3) ∧
      (∀ i, i < TD.x.length →
        npRound (TD.x.getD i 0) < (T.s2 : ℤ) → npRound (TD.p.getD i 0) < (T.s0 : ℤ) →
        npRound (TD.t.getD i 0 / s) < (T.s3 : ℤ) →
        T'.val (npRound (TD.p.getD i 0)).toNat 0 (npRound (TD.x.getD i 0)).toNat
          (npRound (TD.t.getD i 0 / s)).toNat = 1 / s) ∧
      (∀ a b c d,
        (∀ i, i < TD.x.length →
          npRound (TD.x.getD i 0) < (T.s2 : ℤ) → npRound (TD.p.getD i 0) < (T.s0 : ℤ) →
          npRound (TD.t.getD i 0 / s) < (T.s3 : ℤ) →
          ((npRound (TD.p.getD i 0)).toNat, 0, (npRound (TD.x.getD i 0)).toNat,
            (npRound (TD.t.getD i 0 / s)).toNat) ≠ (a, b, c, d)) →
        T'.val a b c d = T.val a b c d) := by
  have hhits : ∀ i ∈ validInd1 TD T s, hitCell1 TD T s i =
      .ok ((npRound (TD.p.getD i 0)).toNat, 0, (npRound (TD.x.getD i 0)).toNat,
        (npRound (TD.t.getD i 0 / s)).toNat) := by
    intro i hi
    simp only [validInd1, List.mem_filter, List.mem_range, decide_eq_true_eq] at hi
    obtain ⟨hin, hx, hp, ht⟩ := hi
    obtain ⟨hx0, hp0, ht0⟩ := hnn i hin
    unfold hitCell1
    rw [normIndex_ok hp0 hp, exceptBind_ok,
      normIndex_ok (le_refl 0) (by exact_mod_cast hs1), exceptBind_ok,
      normIndex_ok hx0 hx, exceptBind_ok,
      normIndex_ok ht0 ht, exceptBind_ok]
    rfl
  obtain ⟨T', heq, hsh, hwrite, hframe⟩ := scatterFold_ok_of_hits (hitCell1 TD T s) (1 / s)
    (validInd1 TD T s)
    (fun i => ((npRound (TD.p.getD i 0)).toNat, 0, (npRound (TD.x.getD i 0)).toNat,
      (npRound (TD.t.getD i 0 / s)).toNat)) hhits T
  refine ⟨T', ?_, hsh, ?_, ?_⟩
  · simp only [event.toSpikeTensor, hdim, if_true, reduceIte]
    rw [if_pos hlen]
    exact heq
  · intro i hin hx hp ht
    exact hwrite _ _ _ _ ⟨i, by
      simp only [validInd1, List.mem_filter, List.mem_range, decide_eq_true_eq]
      exact ⟨hin, hx, hp, ht⟩, rfl⟩
  · intro a b c d hno
    refine hframe a b c d ?_
    rintro ⟨i, hi, hfi⟩
    simp only [validInd1, List.mem_filter, List.mem_range, decide_eq_true_eq] at hi
    exact hno i hi.1 hi.2.1 hi.2.2.1 hi.2.2.2 hfi

/-- The `dim = 2` analogue of `toSpikeTensor1_spec`. -/
theorem toSpikeTensor2_spec (TD : event) (T : Tensor4) (s : ℚ) (yl : List ℚ)
    (hdim : TD.dim = 2) (hy : TD.y = some yl)
    (hlen : TD.x.length = yl.length ∧ yl.length = TD.p.length ∧ TD.p.length = TD.t.length)
    (hnn : ∀ i, i < TD.x.length → 0 ≤ npRound (TD.x.getD i 0) ∧ 0 ≤ npRound (TD.yD.getD i 0) ∧
      0 ≤ npRound (TD.p.getD i 0) ∧ 0 ≤ npRound (TD.t.getD i 0 / s)) :
    ∃ T', TD.toSpikeTensor T s = .ok T' ∧
      (T'.s0 = T.s0 ∧ T'.s1 = T.s1 ∧ T'.s2 = T.s2 ∧ T'.s3 = T.s3) ∧
      (∀ i, i < TD.x.length →
        npRound (TD.x.getD i 0) < (T.s2 : ℤ) → npRound (TD.yD.getD i 0) < (T.s1 : ℤ) →
        npRound (TD.p.getD i 0) < (T.s0 : ℤ) → npRound (TD.t.getD i 0 / s) < (T.s3 : ℤ) →
        T'.val (npRound (TD.p.getD i 0)).toNat (npRound (TD.yD.getD i 0)).toNat
          (npRound (TD.x.getD i 0)).toNat (npRound (TD.t.getD i 0 / s)).toNat = 1 / s) ∧
      (∀ a b c d,
        (∀ i, i < TD.x.length →
          npRound (TD.x.getD i 0) < (T.s2 : ℤ) → npRound (TD.yD.getD i 0) < (T.s1 : ℤ) →
          npRound (TD.p.getD i 0) < (T.s0 : ℤ) → npRound (TD.t.getD i 0 / s) < (T.s3 : ℤ) →
          ((npRound (TD.p.getD i 0)).toNat, (npRound (TD.yD.getD i 0)).toNat,
            (npRound (TD.x.getD i 0)).toNat, (npRound (TD.t.getD i 0 / s)).toNat) ≠
            (a, b, c, d)) →
        T'.val a b c d = T.val a b c d) := by
  have hhits : ∀ i ∈ validInd2 TD T s, hitCell2 TD T s i =
      .ok ((npRound (TD.p.getD i 0)).toNat, (npRound (TD.yD.getD i 0)).toNat,
        (npRound (TD.x.getD i 0)).toNat, (npRound (TD.t.getD i 0 / s)).toNat) := by
    intro i hi
    simp only [validInd2, List.mem_filter, List.mem_range, decide_eq_true_eq] at hi
    obtain ⟨hin, hx, hyb, hp, ht⟩ := hi
    obtain ⟨hx0, hy0, hp0, ht0⟩ := hnn i hin
    unfold hitCell2
    rw [normIndex_ok hp0 hp, exceptBind_ok, normIndex_ok hy0 hyb, exceptBind_ok,
      normIndex_ok hx0 hx, exceptBind_ok, normIndex_ok ht0 ht, exceptBind_ok]
    rfl
  obtain ⟨T', heq, hsh, hwrite, hframe⟩ := scatterFold_ok_of_hits (hitCell2 TD T s) (1 / s)
    (validInd2 TD T s)
    (fun i => ((npRound (TD.p.getD i 0)).toNat, (npRound (TD.yD.getD i 0)).toNat,
      (npRound (TD.x.getD i 0)).toNat, (npRound (TD.t.getD i 0 / s)).toNat)) hhits T
  refine ⟨T', ?_, hsh, ?_, ?_⟩
  · simp only [event.toSpikeTensor, hdim, hy, reduceIte]
    rw [if_pos hlen]
    exact heq
  · intro i hin hx hyb hp ht
    exact hwrite _ _ _ _ ⟨i, by
      simp only [validInd2, List.mem_filter, List.mem_range, decide_eq_true_eq]
      exact ⟨hin, hx, hyb, hp, ht⟩, rfl⟩
  · intro a b c d hno
    refine hframe a b c d ?_
    rintro ⟨i, hi, hfi⟩
    simp only [validInd2, List.mem_filter, List.mem_range, decide_eq_true_eq] at hi
    exact hno i hi.1 hi.2.1 hi.2.2.1 hi.2.2.2.1 hi.2.2.2.2 hfi

/-- C10: whenever the scatter returns a tensor, it is the caller's tensor
updated in place: the shape is the input's shape and every cell not
targeted by a surviving (bounds-passing) event keeps the value it held
before the call.  (The source mutates `emptyTensor` by fancy-indexed
assignment and returns the same object.) -/
theorem c10_scatter_frame (TD : event) (T : Tensor4) (s : ℚ) (T' : Tensor4)
    (h : TD.toSpikeTensor T s = .ok T') :
    (T'.s0 = T.s0 ∧ T'.s1 = T.s1 ∧ T'.s2 = T.s2 ∧ T'.s3 = T.s3) ∧
    ∀ a b c d,
      (TD.dim = 1 → ∀ i ∈ validInd1 TD T s, hitCell1 TD T s i ≠ .ok (a, b, c, d)) →
      (TD.dim = 2 → ∀ i ∈ validInd2 TD T s, hitCell2 TD T s i ≠ .ok (a, b, c, d)) →
      T'.val a b c d = T.val a b c d := by
  by_cases h1 : TD.dim = 1
  · rw [event.toSpikeTensor, if_pos h1] at h
    by_cases hlen : TD.x.length = TD.p.length ∧ TD.p.length = TD.t.length
    · rw [if_pos hlen] at h
      obtain ⟨hsh, hframe⟩ := scatterFold_frame (hitCell1 TD T s) (1 / s)
        (validInd1 TD T s) T T' h
      exact ⟨hsh, fun a b c d hu1 _ => hframe a b c d (hu1 h1)⟩
    · rw [if_neg hlen] at h
      cases h
  · by_cases h2 : TD.dim = 2
    · rw [event.toSpikeTensor, if_neg h1, if_pos h2] at h
      cases hY : TD.y with
      | none =>
        rw [hY] at h
        cases h
      | some yl =>
        rw [hY] at h
        have h' : (if TD.x.length = yl.length ∧ yl.length = TD.p.length ∧
            TD.p.length = TD.t.length
            then scatterFold (hitCell2 TD T s) (1 / s) T (validInd2 TD T s)
            else Except.error "operands could not be broadcast together") = Except.ok T' := h
        by_cases hlen : TD.x.length = yl.length ∧ yl.length = TD.p.length ∧
            TD.p.length = TD.t.length
        · rw [if_pos hlen] at h'
          obtain ⟨hsh, hframe⟩ := scatterFold_frame (hitCell2 TD T s) (1 / s)
            (validInd2 TD T s) T T' h'
          exact ⟨hsh, fun a b c d _ hu2 => hframe a b c d (hu2 h2)⟩
        · rw [if_neg hlen] at h'
          cases h'
    · rw [event.toSpikeTensor, if_neg h1, if_neg h2] at h
      injection h with h
      subst h
      exact ⟨⟨rfl, rfl, rfl, rfl⟩, fun a b c d _ _ => rfl⟩

/-- C5: with an explicitly supplied tensor, events whose rounded `x`/`y`/
`p`/`t` indices fall outside the corresponding bound are silently dropped
(no error, no write), and every in-bounds event is written with value
`1/samplingTime`; stated for both container dimensionalities. -/
theorem c5_explicit_shape_bounds (TD : event) (T : Tensor4) (s : ℚ) :
    (TD.dim = 1 →
      TD.x.length = TD.p.length ∧ TD.p.length = TD.t.length →
      (∀ i, i < TD.x.length → 0 ≤ npRound (TD.x.getD i 0) ∧ 0 ≤ npRound (TD.p.getD i 0) ∧
        0 ≤ npRound (TD.t.getD i 0 / s)) →
      0 < T.s1 →
      ∃ T', TD.toSpikeTensor T s = .ok T' ∧
        (T'.s0 = T.s0 ∧ T'.s1 = T.s1 ∧ T'.s2 = T.s2 ∧ T'.s3 = T.s3) ∧
        (∀ i, i < TD.x.length →
          npRound (TD.x.getD i 0) < (T.s2 : ℤ) → npRound (TD.p.getD i 0) < (T.s0 : ℤ) →
          npRound (TD.t.getD i 0 / s) < (T.s3 : ℤ) →
          T'.val (npRound (TD.p.getD i 0)).toNat 0 (npRound (TD.x.getD i 0)).toNat
            (npRound (TD.t.getD i 0 / s)).toNat = 1 / s) ∧
        (∀ a b c d,
          (∀ i, i < TD.x.length →
            npRound (TD.x.getD i 0) < (T.s2 : ℤ) → npRound (TD.p.getD i 0) < (T.s0 : ℤ) →
            npRound (TD.t.getD i 0 / s) < (T.s3 : ℤ) →
            ((npRound (TD.p.getD i 0)).toNat, 0, (npRound (TD.x.getD i 0)).toNat,
              (npRound (TD.t.getD i 0 / s)).toNat) ≠ (a, b, c, d)) →
          T'.val a b c d = T.val a b c d)) ∧
    (TD.dim = 2 → ∀ yl, TD.y = some yl →
      TD.x.length = yl.length ∧ yl.length = TD.p.length ∧ TD.p.length = TD.t.length →
      (∀ i, i < TD.x.length → 0 ≤ npRound (TD.x.getD i 0) ∧ 0 ≤ npRound (TD.yD.getD i 0) ∧
        0 ≤ npRound (TD.p.getD i 0) ∧ 0 ≤ npRound (TD.t.getD i 0 / s)) →
      ∃ T', TD.toSpikeTensor T s = .ok T' ∧
        (T'.s0 = T.s0 ∧ T'.s1 = T.s1 ∧ T'.s2 = T.s2 ∧ T'.s3 = T.s3) ∧
        (∀ i, i < TD.x.length →
          npRound (TD.x.getD i 0) < (T.s2 : ℤ) → npRound (TD.yD.getD i 0) < (T.s1 : ℤ) →
          npRound (TD.p.getD i 0) < (T.s0 : ℤ) → npRound (TD.t.getD i 0 / s) < (T.s3 : ℤ) →
          T'.val (npRound (TD.p.getD i 0)).toNat (npRound (TD.yD.getD i 0)).toNat
            (npRound (TD.x.getD i 0)).toNat (npRound (TD.t.getD i 0 / s)).toNat = 1 / s) ∧
        (∀ a b c d,
          (∀ i, i < TD.x.length →
            npRound (TD.x.getD i 0) < (T.s2 : ℤ) → npRound (TD.yD.getD i 0) < (T.s1 : ℤ) →
            npRound (TD.p.getD i 0) < (T.s0 : ℤ) → npRound (TD.t.getD i 0 / s) < (T.s3 : ℤ) →
            ((npRound (TD.p.getD i 0)).toNat, (npRound (TD.yD.getD i 0)).toNat,
              (npRound (TD.x.getD i 0)).toNat, (npRound (TD.t.getD i 0 / s)).toNat) ≠
              (a, b, c, d)) →
          T'.val a b c d = T.val a b c d)) :=
  ⟨fun h1 h2 h3 h4 => toSpikeTensor1_spec TD T s h1 h2 h3 h4,
   fun h1 yl h2 h3 h4 => toSpikeTensor2_spec TD T s yl h1 h2 h3 h4⟩

/-- Witness for C5 at the boundary scenario `x=[0,1,300]`, `p=[0,0,0]`,
`t=[0,1,2]` with width bound 256: the first two events are written, the
third (index 300 >= 256) is dropped without raising. -/
theorem c5_explicit_shape_bounds_witness :
    ((({ dim := 1, x := [0, 1, 300], y := none, p := [0, 0, 0], t := [0, 1, 2] } : event).toSpikeTensor
        ⟨1, 1, 256, 3, fun _ _ _ _ => 0⟩ 1).map
      (fun T => (T.val 0 0 0 0, T.val 0 0 1 1, T.val 0 0 5 2))) = .ok (1, 1, 0) := by
  have e0 : npRound ((0 : ℚ)) = 0 := by
    have h : ((0 : ℚ)) = ((0 : ℕ) : ℚ) := by norm_num
    rw [h, npRound_natCast]; norm_num
  have e1 : npRound ((1 : ℚ)) = 1 := by
    have h : ((1 : ℚ)) = ((1 : ℕ) : ℚ) := by norm_num
    rw [h, npRound_natCast]; norm_num
  have e2 : npRound ((2 : ℚ)) = 2 := by
    have h : ((2 : ℚ)) = ((2 : ℕ) : ℚ) := by norm_num
    rw [h, npRound_natCast]; norm_num
  have e300 : npRound ((300 : ℚ)) = 300 := by
    have h : ((300 : ℚ)) = ((300 : ℕ) : ℚ) := by norm_num
    rw [h, npRound_natCast]; norm_num
  obtain ⟨T', heq, hsh, hwrite, hframe⟩ :=
    (c5_explicit_shape_bounds
      { dim := 1, x := [0, 1, 300], y := none, p := [0, 0, 0], t := [0, 1, 2] }
      ⟨1, 1, 256, 3, fun _ _ _ _ => 0⟩ 1).1 rfl (by decide)
      (by
        intro i hi
        have hi3 : i < 3 := hi
        clear hi
        interval_cases i <;>
          exact ⟨npRound_nonneg (by norm_num [List.getD_cons_zero, List.getD_cons_succ]),
            npRound_nonneg (by norm_num [List.getD_cons_zero, List.getD_cons_succ]),
            npRound_nonneg (by norm_num [List.getD_cons_zero, List.getD_cons_succ])⟩)
      (by norm_num)
  have w0 := hwrite 0 (by norm_num)
    (by norm_num [List.getD_cons_zero, List.getD_cons_succ, e0])
    (by norm_num [List.getD_cons_zero, List.getD_cons_succ, e0])
    (by norm_num [List.getD_cons_zero, List.getD_cons_succ, e0])
  have w1 := hwrite 1 (by norm_num)
    (by norm_num [List.getD_cons_zero, List.getD_cons_succ, e1])
    (by norm_num [List.getD_cons_zero, List.getD_cons_succ, e0])
    (by norm_num [List.getD_cons_zero, List.getD_cons_succ, e1])
  norm_num [List.getD_cons_zero, List.getD_cons_succ, e0, e1] at w0 w1
  have f2 := hframe 0 0 5 2 (by
    intro i hi
    have hi3 : i < 3 := hi
    clear hi
    interval_cases i
    · intro hx hp ht
      simp only [List.getD_cons_zero, List.getD_cons_succ, e0]
      decide
    · intro hx hp ht
      simp only [List.getD_cons_zero, List.getD_cons_succ, e0, e1]
      decide
    · intro hx hp ht
      exfalso
      simp only [List.getD_cons_zero, List.getD_cons_succ, e300] at hx
      norm_num at hx)
  rw [heq]
  simp only [Except.map]
  rw [w0, w1, f2]

/-- Witness for C10: a one-event scatter into a `(1,1,1,2)` tensor keeps
the shape and leaves the untargeted cell `(0,0,0,1)` at its prior value. -/
theorem c10_scatter_frame_witness :
    ((({ dim := 1, x := [0], y := none, p := [0], t := [0] } : event).toSpikeTensor
        ⟨1, 1, 1, 2, fun _ _ _ _ => 0⟩ 1).map (fun T => (T.s3, T.val 0 0 0 1))) = .ok (2, 0) := by
  have e0 : npRound ((0 : ℚ)) = 0 := by
    have h : ((0 : ℚ)) = ((0 : ℕ) : ℚ) := by norm_num
    rw [h, npRound_natCast]; norm_num
  obtain ⟨T', heq, hsh, hwrite, hframe⟩ :=
    toSpikeTensor1_spec { dim := 1, x := [0], y := none, p := [0], t := [0] }
      ⟨1, 1, 1, 2, fun _ _ _ _ => 0⟩ 1 rfl (by decide)
      (by
        intro i hi
        have hi1 : i < 1 := hi
        interval_cases i
        exact ⟨npRound_nonneg (by norm_num [List.getD_cons_zero]),
          npRound_nonneg (by norm_num [List.getD_cons_zero]),
          npRound_nonneg (by norm_num [List.getD_cons_zero])⟩)
      (by norm_num)
  have h10 := c10_scatter_frame { dim := 1, x := [0], y := none, p := [0], t := [0] }
    ⟨1, 1, 1, 2, fun _ _ _ _ => 0⟩ 1 T' heq
  have hhit : hitCell1 { dim := 1, x := [0], y := none, p := [0], t := [0] }
      ⟨1, 1, 1, 2, fun _ _ _ _ => 0⟩ 1 0 = .ok (0, 0, 0, 0) := by
    norm_num [hitCell1, normIndex, List.getD_cons_zero, e0, exceptBind_ok]
  have huntargeted : ∀ i ∈ validInd1 { dim := 1, x := [0], y := none, p := [0], t := [0] }
      ⟨1, 1, 1, 2, fun _ _ _ _ => 0⟩ 1,
      hitCell1 { dim := 1, x := [0], y := none, p := [0], t := [0] }
        ⟨1, 1, 1, 2, fun _ _ _ _ => 0⟩ 1 i ≠ .ok (0, 0, 0, 1) := by
    intro i hi
    simp only [validInd1, List.mem_filter, List.mem_range] at hi
    have hi1 : i < 1 := hi.1
    interval_cases i
    rw [hhit]
    decide
  have hval := h10.2 0 0 0 1 (fun _ => huntargeted) (fun h2 => absurd h2 (by decide))
  rw [heq]
  simp only [Except.map, Except.ok.injEq, Prod.mk.injEq]
  exact ⟨hsh.2.2.2, hval⟩

/-! ### C4: auto-shape of the dense tensor -/

theorem npRound_intCast_add_one (k : ℤ) : npRound ((k : ℚ) + 1) = k + 1 := by
  have h : ((k : ℚ) + 1) = (((k + 1 : ℤ)) : ℚ) := by push_cast; ring
  rw [h, npRound_intCast]

theorem npRound_add_one_of_fract_lt {q : ℚ} (h : Int.fract q < 1/2) :
    npRound (q + 1) = ⌊q⌋ + 1 := by
  rw [npRound_eq_floor (by rwa [Int.fract_add_one]), Int.floor_add_one]

theorem npZerosDim_ok {d : ℤ} (h : 0 ≤ d) : npZerosDim d = .ok d.toNat := by
  unfold npZerosDim
  rw [if_pos h]

theorem npRound_getD_nonneg {l : List ℚ} (h : ∀ v ∈ l, 0 ≤ v) {i : ℕ} (hi : i < l.length) :
    0 ≤ npRound (l.getD i 0) := by
  apply npRound_nonneg
  rw [List.getD_eq_getElem l 0 hi]
  exact h _ (List.getElem_mem hi)

theorem npRound_getD_div_nonneg {l : List ℚ} (h : ∀ v ∈ l, 0 ≤ v) {i : ℕ}
    (hi : i < l.length) {s : ℚ} (hs : 0 < s) :
    0 ≤ npRound (l.getD i 0 / s) := by
  apply npRound_nonneg
  apply div_nonneg _ (le_of_lt hs)
  rw [List.getD_eq_getElem l 0 hi]
  exact h _ (List.getElem_mem hi)

/-- Auto-shape of the 1-D `toSpikeArray`: each spatial/channel dimension is
`floor(max)+1` for integer-valued coordinates, and the time-bin count is
`floor(max(t)/samplingTime)+1` provided the fractional part of
`max(t)/samplingTime` is below one half (otherwise `np.round` rounds up,
see the C4 counterexample). -/
theorem toSpikeArray1_autoShape (TD : event) (s : ℚ) (hs : 0 < s)
    (hdim : TD.dim = 1)
    (hl1 : TD.x.length = TD.p.length) (hl2 : TD.p.length = TD.t.length)
    (hxint : ∀ v ∈ TD.x, ∃ k : ℤ, v = (k : ℚ)) (hpint : ∀ v ∈ TD.p, ∃ k : ℤ, v = (k : ℚ))
    (hxnn : ∀ v ∈ TD.x, 0 ≤ v) (hpnn : ∀ v ∈ TD.p, 0 ≤ v) (htnn : ∀ v ∈ TD.t, 0 ≤ v)
    (mp mx mt : ℚ) (hmp : listMax TD.p = some mp) (hmx : listMax TD.x = some mx)
    (hmt : listMax TD.t = some mt) (hfr : Int.fract (mt / s) < 1/2) :
    ∃ M : Tensor3, TD.toSpikeArray s none = .ok (.mk3 M) ∧
      (M.s0 : ℤ) = ⌊mp⌋ + 1 ∧ (M.s1 : ℤ) = ⌊mx⌋ + 1 ∧ (M.s2 : ℤ) = ⌊mt / s⌋ + 1 := by
  obtain ⟨kp, hkp⟩ := hpint mp (listMax_mem hmp)
  subst hkp
  obtain ⟨kx, hkx⟩ := hxint mx (listMax_mem hmx)
  subst hkx
  have hkp0 : 0 ≤ kp := by exact_mod_cast hpnn _ (listMax_mem hmp)
  have hkx0 : 0 ≤ kx := by exact_mod_cast hxnn _ (listMax_mem hmx)
  have hmt0 : (0 : ℚ) ≤ mt := htnn _ (listMax_mem hmt)
  have hft0 : 0 ≤ ⌊mt / s⌋ := Int.floor_nonneg.mpr (div_nonneg hmt0 hs.le)
  have hnn : ∀ i, i < TD.x.length → 0 ≤ npRound (TD.x.getD i 0) ∧
      0 ≤ npRound (TD.p.getD i 0) ∧ 0 ≤ npRound (TD.t.getD i 0 / s) := by
    intro i hi
    exact ⟨npRound_getD_nonneg hxnn hi, npRound_getD_nonneg hpnn (by omega),
      npRound_getD_div_nonneg htnn (by omega) hs⟩
  obtain ⟨T', heqT, hsh, -, -⟩ := toSpikeTensor1_spec TD
    ⟨(kp + 1).toNat, 1, (kx + 1).toNat, (⌊mt / s⌋ + 1).toNat, fun _ _ _ _ => 0⟩ s
    hdim ⟨hl1, hl2⟩ hnn (by norm_num)
  refine ⟨⟨T'.s0, T'.s2, T'.s3, fun c w tb => T'.val c 0 w tb⟩, ?_, ?_, ?_, ?_⟩
  · simp only [event.toSpikeArray, hdim, hmp, hmx, hmt, expectSome, exceptBind_ok,
      pure, Except.pure]
    rw [npRound_intCast_add_one kp, npRound_intCast_add_one kx,
      npRound_add_one_of_fract_lt hfr,
      npZerosDim_ok (by omega), exceptBind_ok,
      npZerosDim_ok (by omega), exceptBind_ok,
      npZerosDim_ok (by omega), exceptBind_ok,
      heqT, exceptBind_ok]
    rw [if_pos trivial]
  · rw [hsh.1]
    show (((kp + 1).toNat : ℕ) : ℤ) = ⌊(kp : ℚ)⌋ + 1
    rw [Int.toNat_of_nonneg (by omega), Int.floor_intCast]
  · rw [hsh.2.2.1]
    show (((kx + 1).toNat : ℕ) : ℤ) = ⌊(kx : ℚ)⌋ + 1
    rw [Int.toNat_of_nonneg (by omega), Int.floor_intCast]
  · rw [hsh.2.2.2]
    show (((⌊mt / s⌋ + 1).toNat : ℕ) : ℤ) = ⌊mt / s⌋ + 1
    rw [Int.toNat_of_nonneg (by omega)]

/-- Auto-shape of the 2-D `toSpikeArray`. -/
theorem toSpikeArray2_autoShape (TD : event) (s : ℚ) (hs : 0 < s)
    (hdim : TD.dim = 2) (yl : List ℚ) (hy : TD.y = some yl)
    (hl1 : TD.x.length = yl.length) (hl2 : yl.length = TD.p.length)
    (hl3 : TD.p.length = TD.t.length)
    (hxint : ∀ v ∈ TD.x, ∃ k : ℤ, v = (k : ℚ)) (hyint : ∀ v ∈ yl, ∃ k : ℤ, v = (k : ℚ))
    (hpint : ∀ v ∈ TD.p, ∃ k : ℤ, v = (k : ℚ))
    (hxnn : ∀ v ∈ TD.x, 0 ≤ v) (hynn : ∀ v ∈ yl, 0 ≤ v) (hpnn : ∀ v ∈ TD.p, 0 ≤ v)
    (htnn : ∀ v ∈ TD.t, 0 ≤ v)
    (mp my mx mt : ℚ) (hmp : listMax TD.p = some mp) (hmy : listMax TD.yD = some my)
    (hmx : listMax TD.x = some mx) (hmt : listMax TD.t = some mt)
    (hfr : Int.fract (mt / s) < 1/2) :
    ∃ M : Tensor4, TD.toSpikeArray s none = .ok (.mk4 M) ∧
      (M.s0 : ℤ) = ⌊mp⌋ + 1 ∧ (M.s1 : ℤ) = ⌊my⌋ + 1 ∧ (M.s2 : ℤ) = ⌊mx⌋ + 1 ∧
      (M.s3 : ℤ) = ⌊mt / s⌋ + 1 := by
  have hyD : TD.yD = yl := by simp [event.yD, hy]
  obtain ⟨kp, hkp⟩ := hpint mp (listMax_mem hmp)
  subst hkp
  obtain ⟨ky, hky⟩ := hyint my (by rw [← hyD]; exact listMax_mem hmy)
  subst hky
  obtain ⟨kx, hkx⟩ := hxint mx (listMax_mem hmx)
  subst hkx
  have hkp0 : 0 ≤ kp := by exact_mod_cast hpnn _ (listMax_mem hmp)
  have hky0 : 0 ≤ ky := by
    have h2 : (0 : ℚ) ≤ ((ky : ℤ) : ℚ) := hynn _ (by rw [← hyD]; exact listMax_mem hmy)
    exact_mod_cast h2
  have hkx0 : 0 ≤ kx := by exact_mod_cast hxnn _ (listMax_mem hmx)
  have hmt0 : (0 : ℚ) ≤ mt := htnn _ (listMax_mem hmt)
  have hft0 : 0 ≤ ⌊mt / s⌋ := Int.floor_nonneg.mpr (div_nonneg hmt0 hs.le)
  have hynnD : ∀ v ∈ TD.yD, 0 ≤ v := by rw [hyD]; exact hynn
  have hnn : ∀ i, i < TD.x.length → 0 ≤ npRound (TD.x.getD i 0) ∧
      0 ≤ npRound (TD.yD.getD i 0) ∧ 0 ≤ npRound (TD.p.getD i 0) ∧
      0 ≤ npRound (TD.t.getD i 0 / s) := by
    intro i hi
    have hiy : i < TD.yD.length := by rw [hyD]; omega
    exact ⟨npRound_getD_nonneg hxnn hi, npRound_getD_nonneg hynnD hiy,
      npRound_getD_nonneg hpnn (by omega), npRound_getD_div_nonneg htnn (by omega) hs⟩
  obtain ⟨T', heqT, hsh, -, -⟩ := toSpikeTensor2_spec TD
    ⟨(kp + 1).toNat, (ky + 1).toNat, (kx + 1).toNat, (⌊mt / s⌋ + 1).toNat, fun _ _ _ _ => 0⟩
    s yl hdim hy ⟨hl1, hl2, hl3⟩ hnn
  refine ⟨T', ?_, ?_, ?_, ?_, ?_⟩
  · simp only [event.toSpikeArray, hdim]
    rw [if_neg (by norm_num : ¬((2 : ℕ) = 1)), if_pos trivial]
    simp only [hmp, hmy, hmx, hmt, expectSome, exceptBind_ok, pure, Except.pure]
    rw [npRound_intCast_add_one kp, npRound_intCast_add_one ky, npRound_intCast_add_one kx,
      npRound_add_one_of_fract_lt hfr,
      npZerosDim_ok (by omega), exceptBind_ok,
      npZerosDim_ok (by omega), exceptBind_ok,
      npZerosDim_ok (by omega), exceptBind_ok,
      npZerosDim_ok (by omega), exceptBind_ok,
      heqT, exceptBind_ok]
  · rw [hsh.1]
    show (((kp + 1).toNat : ℕ) : ℤ) = ⌊(kp : ℚ)⌋ + 1
    rw [Int.toNat_of_nonneg (by omega), Int.floor_intCast]
  · rw [hsh.2.1]
    show (((ky + 1).toNat : ℕ) : ℤ) = ⌊(ky : ℚ)⌋ + 1
    rw [Int.toNat_of_nonneg (by omega), Int.floor_intCast]
  · rw [hsh.2.2.1]
    show (((kx + 1).toNat : ℕ) : ℤ) = ⌊(kx : ℚ)⌋ + 1
    rw [Int.toNat_of_nonneg (by omega), Int.floor_intCast]
  · rw [hsh.2.2.2]
    show (((⌊mt / s⌋ + 1).toNat : ℕ) : ℤ) = ⌊mt / s⌋ + 1
    rw [Int.toNat_of_nonneg (by omega)]

/-- C4 (amended): with auto-shape, the channel dimension is `⌊max p⌋ + 1`
and the spatial dimension(s) `⌊max x⌋ + 1` (and `⌊max y⌋ + 1`) for
integer-valued coordinate columns, and the time-bin dimension is
`⌊max t / samplingTime⌋ + 1` provided `Int.fract (max t / samplingTime)
< 1/2`.  Correction to the claim: the code computes each dimension as
`np.round(max + 1)` (round half to even), not `floor(max) + 1`, so when
the fractional part of `max t / samplingTime` reaches one half the
time-bin count exceeds `floor(max t / samplingTime) + 1`. -/
theorem c4_autoShape_amended (TD : event) (s : ℚ) (hs : 0 < s) :
    (TD.dim = 1 →
      TD.x.length = TD.p.length → TD.p.length = TD.t.length →
      (∀ v ∈ TD.x, ∃ k : ℤ, v = (k : ℚ)) → (∀ v ∈ TD.p, ∃ k : ℤ, v = (k : ℚ)) →
      (∀ v ∈ TD.x, 0 ≤ v) → (∀ v ∈ TD.p, 0 ≤ v) → (∀ v ∈ TD.t, 0 ≤ v) →
      ∀ mp mx mt, listMax TD.p = some mp → listMax TD.x = some mx →
        listMax TD.t = some mt → Int.fract (mt / s) < 1/2 →
      ∃ M : Tensor3, TD.toSpikeArray s none = .ok (.mk3 M) ∧
        (M.s0 : ℤ) = ⌊mp⌋ + 1 ∧ (M.s1 : ℤ) = ⌊mx⌋ + 1 ∧ (M.s2 : ℤ) = ⌊mt / s⌋ + 1) ∧
    (TD.dim = 2 → ∀ yl, TD.y = some yl →
      TD.x.length = yl.length → yl.length = TD.p.length → TD.p.length = TD.t.length →
      (∀ v ∈ TD.x, ∃ k : ℤ, v = (k : ℚ)) → (∀ v ∈ yl, ∃ k : ℤ, v = (k : ℚ)) →
      (∀ v ∈ TD.p, ∃ k : ℤ, v = (k : ℚ)) →
      (∀ v ∈ TD.x, 0 ≤ v) → (∀ v ∈ yl, 0 ≤ v) → (∀ v ∈ TD.p, 0 ≤ v) → (∀ v ∈ TD.t, 0 ≤ v) →
      ∀ mp my mx mt, listMax TD.p = some mp → listMax TD.yD = some my →
        listMax TD.x = some mx → listMax TD.t = some mt → Int.fract (mt / s) < 1/2 →
      ∃ M : Tensor4, TD.toSpikeArray s none = .ok (.mk4 M) ∧
        (M.s0 : ℤ) = ⌊mp⌋ + 1 ∧ (M.s1 : ℤ) = ⌊my⌋ + 1 ∧ (M.s2 : ℤ) = ⌊mx⌋ + 1 ∧
        (M.s3 : ℤ) = ⌊mt / s⌋ + 1) :=
  ⟨fun hdim hl1 hl2 hxint hpint hxnn hpnn htnn mp mx mt hmp hmx hmt hfr =>
    toSpikeArray1_autoShape TD s hs hdim hl1 hl2 hxint hpint hxnn hpnn htnn mp mx mt
      hmp hmx hmt hfr,
   fun hdim yl hy hl1 hl2 hl3 hxint hyint hpint hxnn hynn hpnn htnn mp my mx mt hmp hmy
      hmx hmt hfr =>
    toSpikeArray2_autoShape TD s hs hdim yl hy hl1 hl2 hl3 hxint hyint hpint hxnn hynn
      hpnn htnn mp my mx mt hmp hmy hmx hmt hfr⟩

/-- C4 counterexample: for the (data-model-conforming) 1-D event set
`x=[0]`, `p=[0]`, `t=[1.6]` with `samplingTime = 1`, the auto-shaped
tensor's time dimension is `np.round(1.6 + 1) = 3`, while the claim's
`floor(max(t)/samplingTime) + 1` is `2`. -/
theorem c4_autoShape_counterexample :
    ((({ dim := 1, x := [0], y := none, p := [0], t := [8/5] } : event).toSpikeArray 1 none).map
      SpikeMat.shape) = .ok [1, 1, 3] ∧ (⌊(8 : ℚ)/5 / 1⌋ + 1 = 2) ∧ ((3 : ℤ) ≠ 2) := by
  refine ⟨?_, by norm_num, by norm_num⟩
  have e1 : npRound ((0 : ℚ) + 1) = 1 := by
    rw [show (0 : ℚ) + 1 = ((1 : ℤ) : ℚ) by norm_num, npRound_intCast]
  have e3 : npRound ((8 : ℚ)/5 / 1 + 1) = 3 := by
    rw [show (8 : ℚ)/5 / 1 + 1 = 13/5 by norm_num]
    rw [npRound_eq_floor_add_one (by norm_num [Int.fract] : (1:ℚ)/2 < Int.fract ((13 : ℚ)/5))]
    norm_num
  have hnn : ∀ i, i < ({ dim := 1, x := [0], y := none, p := [0], t := [8/5] } : event).x.length →
      0 ≤ npRound (({ dim := 1, x := [0], y := none, p := [0], t := [8/5] } : event).x.getD i 0) ∧
      0 ≤ npRound (({ dim := 1, x := [0], y := none, p := [0], t := [8/5] } : event).p.getD i 0) ∧
      0 ≤ npRound (({ dim := 1, x := [0], y := none, p := [0], t := [8/5] } : event).t.getD i 0 / 1) := by
    intro i hi
    have hi1 : i < 1 := hi
    interval_cases i
    exact ⟨npRound_nonneg (by norm_num [List.getD_cons_zero]),
      npRound_nonneg (by norm_num [List.getD_cons_zero]),
      npRound_nonneg (by norm_num [List.getD_cons_zero])⟩
  obtain ⟨T', heqT, hsh, -, -⟩ := toSpikeTensor1_spec
    { dim := 1, x := [0], y := none, p := [0], t := [8/5] }
    ⟨(1 : ℤ).toNat, 1, (1 : ℤ).toNat, (3 : ℤ).toNat, fun _ _ _ _ => 0⟩ 1
    rfl (by decide) hnn (by norm_num)
  have hmp : listMax ([0] : List ℚ) = some 0 := rfl
  have hmt : listMax ([(8 : ℚ)/5]) = some (8/5) := rfl
  simp only [event.toSpikeArray]
  rw [if_pos trivial]
  simp only [hmp, hmt, expectSome, exceptBind_ok, pure, Except.pure]
  rw [e1, e3]
  simp only [npZerosDim_ok (show (0 : ℤ) ≤ 1 by norm_num),
    npZerosDim_ok (show (0 : ℤ) ≤ 3 by norm_num), exceptBind_ok, heqT,
    Except.map, SpikeMat.shape]
  rw [hsh.1, hsh.2.2.1, hsh.2.2.2]
  decide

/-- Witness for C4 (amended) at a 1-D and a 2-D concrete event set. -/
theorem c4_autoShape_witness :
    ((({ dim := 1, x := [1], y := none, p := [0], t := [2/5] } : event).toSpikeArray 1 none).map
      SpikeMat.shape) = .ok [1, 2, 1] ∧
    ((({ dim := 2, x := [1], y := some [2], p := [0], t := [0] } : event).toSpikeArray 1 none).map
      SpikeMat.shape) = .ok [1, 3, 2, 1] := by
  constructor
  · obtain ⟨M, heq, h0, h1, h2⟩ :=
      (c4_autoShape_amended { dim := 1, x := [1], y := none, p := [0], t := [2/5] } 1
        (by norm_num)).1 rfl rfl rfl
        (by intro v hv; simp only [List.mem_singleton] at hv; exact ⟨1, by rw [hv]; norm_num⟩)
        (by intro v hv; simp only [List.mem_singleton] at hv; exact ⟨0, by rw [hv]; norm_num⟩)
        (by intro v hv; simp only [List.mem_singleton] at hv; rw [hv]; norm_num)
        (by intro v hv; simp only [List.mem_singleton] at hv; rw [hv])
        (by intro v hv; simp only [List.mem_singleton] at hv; rw [hv]; norm_num)
        0 1 (2/5) rfl rfl rfl (by norm_num [Int.fract])
    rw [heq]
    have h0' : M.s0 = 1 := by norm_num at h0; exact_mod_cast h0
    have h1' : M.s1 = 2 := by norm_num at h1; exact_mod_cast h1
    have h2' : M.s2 = 1 := by norm_num at h2; exact_mod_cast h2
    simp [Except.map, SpikeMat.shape, h0', h1', h2']
  · obtain ⟨M, heq, h0, h1, h2, h3⟩ :=
      (c4_autoShape_amended { dim := 2, x := [1], y := some [2], p := [0], t := [0] } 1
        (by norm_num)).2 rfl [2] rfl rfl rfl rfl
        (by intro v hv; simp only [List.mem_singleton] at hv; exact ⟨1, by rw [hv]; norm_num⟩)
        (by intro v hv; simp only [List.mem_singleton] at hv; exact ⟨2, by rw [hv]; norm_num⟩)
        (by intro v hv; simp only [List.mem_singleton] at hv; exact ⟨0, by rw [hv]; norm_num⟩)
        (by intro v hv; simp only [List.mem_singleton] at hv; rw [hv]; norm_num)
        (by intro v hv; simp only [List.mem_singleton] at hv; rw [hv]; norm_num)
        (by intro v hv; simp only [List.mem_singleton] at hv; rw [hv])
        (by intro v hv; simp only [List.mem_singleton] at hv; rw [hv])
        0 2 1 0 rfl rfl rfl rfl (by norm_num [Int.fract])
    rw [heq]
    have h0' : M.s0 = 1 := by norm_num at h0; exact_mod_cast h0
    have h1' : M.s1 = 3 := by norm_num at h1; exact_mod_cast h1
    have h2' : M.s2 = 2 := by norm_num at h2; exact_mod_cast h2
    have h3' : M.s3 = 1 := by norm_num at h3; exact_mod_cast h3
    simp [Except.map, SpikeMat.shape, h0', h1', h2', h3']
